import Mathlib

/-!
# Verification of the dnd-engine resolution core

This file is a shallow embedding, in Lean 4, of the combat / spell / item /
dialogue / experience resolution core of the `dnd-engine` repository
(`src/server/models/index.js`, `src/server/controllers/{index,combat,spells,
monster,items,dialogue}.js`), together with theorems settling the frozen
claims about it.

Modelling conventions:

* JavaScript numbers that a field may hold are modelled by `JVal`
  (`undef` for a missing field, `num n` for an integer, `nan` for `NaN`,
  `jnull` for `null`).  All arithmetic performed by the engine on these
  fields is integer arithmetic, so `Int` is an exact model of the non-NaN
  values.  Truthiness (`x || d`), `typeof x === 'number'` tests and the
  propagation of `NaN` through `-` and `<=` follow the JavaScript rules.
* JavaScript `Map`s (insertion ordered, unique keys) and plain objects used
  as dictionaries are modelled as association lists `List (String × α)`
  with `alookup` / `aset` / `aerase` mirroring `get` / `set` / `delete`.
* `Math.random`-driven die rolls are modelled by an oracle list of
  pre-drawn outcomes: each call of `rollDie` consumes the head of the
  list (an empty oracle yields 1, a case never exercised by the theorems,
  which always supply enough rolls).  Uniformity of a roll is rendered, as
  usual for a shallow embedding, by quantifying over every outcome in the
  die's range.
* Operations that `throw` return `Except String α` together with the
  registry as it stands when the exception escapes, so that partial
  mutation before a throw is observable.
-/

/-- A JavaScript value held in a numeric field: a missing property
(`undef`), an integer number, `NaN`, or `null`. -/
inductive JVal where
  | undef : JVal
  | num : Int → JVal
  | nan : JVal
  | jnull : JVal
deriving DecidableEq, Repr

namespace JVal

/-- JavaScript truthiness of the value. `undefined`, `NaN`, `null` and `0`
are falsy. -/
def truthy : JVal → Bool
  | undef => false
  | nan => false
  | jnull => false
  | num n => n != 0

/-- `typeof v === 'number'` — true for integers and for `NaN`. -/
def isNum : JVal → Bool
  | num _ => true
  | nan => true
  | _ => false

/-- JavaScript subtraction `v - d` of an integer from the value:
`undefined` propagates to `NaN`, `NaN` stays `NaN`, `null` coerces to 0. -/
def sub (v : JVal) (d : Int) : JVal :=
  match v with
  | undef => nan
  | nan => nan
  | jnull => num (0 - d)
  | num n => num (n - d)

/-- The JavaScript comparison `v <= 0`: false for `undefined` and `NaN`
(NaN-propagating comparison), true for `null` (coerces to 0). -/
def le0 : JVal → Bool
  | undef => false
  | nan => false
  | jnull => true
  | num n => n ≤ 0

/-- `v || 0`: the number when it is a nonzero integer, otherwise 0 (note
`num 0 ↦ 0` coincides with the value itself). -/
def or0 : JVal → Int
  | num n => n
  | _ => 0
end JVal

/-- `opt || d` on an optional integer coming from an external JSON table:
a present nonzero value wins, a missing or zero value falls back to `d`
(JavaScript `||` treats 0 as falsy). -/
def jsOr (v : Option Int) (d : Int) : Int :=
  match v with
  | some n => if n = 0 then d else n
  | none => d

/-- Lookup in an association list modelling a JS `Map` / object: first
binding of the key wins. -/
def alookup {α : Type} : List (String × α) → String → Option α
  | [], _ => none
  | (k, v) :: rest, key => if key = k then some v else alookup rest key

/-- `Map.set` / property assignment: replace the first binding of the key
in place, or append a new binding. -/
def aset {α : Type} : List (String × α) → String → α → List (String × α)
  | [], key, v => [(key, v)]
  | (k, w) :: rest, key, v =>
      if key = k then (k, v) :: rest else (k, w) :: aset rest key v

/-- `Map.delete`: remove the first binding of the key. -/
def aerase {α : Type} : List (String × α) → String → List (String × α)
  | [], _ => []
  | (k, w) :: rest, key => if key = k then rest else (k, w) :: aerase rest key

/-- Keys of an association list are pairwise distinct (real JS `Map`s
always satisfy this; our reachable states preserve it). -/
def KeysNodup {α : Type} (l : List (String × α)) : Prop :=
  (l.map Prod.fst).Nodup

/-! ## Data model (`src/server/models/index.js`) -/

/-- A Character as stored on a player (`player.character`).  Fields the
engine reads or writes; every field can be absent, exactly as on a plain
JS object.  `hp` and `ac` are `JVal` because the engine performs
`typeof`-tests and truthiness tests on them and `hp` can become `NaN`
(castSpell subtracts damage from a possibly-undefined `hp`). -/
structure Character where
  name : Option String := none
  race : Option String := none
  className : Option String := none
  hp : JVal := JVal.undef
  ac : JVal := JVal.undef
  abilityScores : Option (List (String × Int)) := none
  savingThrows : Option (List (String × Int)) := none
  experience : Option Int := none
  level : Option Int := none
  inventory : Option (List String) := none
  status : Option String := none
deriving DecidableEq, Repr

/-- A Player entry of a game (`{ id, name, character }`). -/
structure Player where
  id : String
  name : String
  character : Option Character := none
deriving DecidableEq, Repr

/-- A spawned monster instance. -/
structure Monster where
  instanceId : String
  type : String
  hp : Int
  ac : Int
  status : String
deriving DecidableEq, Repr

/-- A campaign summary object (`campaigns/<id>.json`). -/
structure Campaign where
  id : String
  name : String
  description : String
deriving DecidableEq, Repr

/-- One game's state. -/
structure Game where
  id : String
  players : List (String × Player) := []
  log : List String := []
  campaign : Option Campaign := none
  monsters : List (String × Monster) := []
deriving DecidableEq, Repr

/-- The process-wide `games` map of `models/index.js`. -/
def Registry : Type := List (String × Game)

/-- `createGame(id)`: return the existing game or create-and-register an
empty one (idempotent creation). -/
def createGame (reg : Registry) (id : String) : Game × Registry :=
  match alookup reg id with
  | some g => (g, reg)
  | none =>
      let g : Game := { id := id }
      (g, aset reg id g)

/-- `getGame(id)`: nilable lookup, never creates. -/
def getGame (reg : Registry) (id : String) : Option Game :=
  alookup reg id

/-- `addPlayer(gameId, playerId, playerName)`: create the game if needed;
only add the player if the id is not yet present (existing entry is not
overwritten). -/
def addPlayer (reg : Registry) (gameId playerId playerName : String) :
    Player × Registry :=
  let gr := createGame reg gameId
  let game := gr.1
  match alookup game.players playerId with
  | some p => (p, gr.2)
  | none =>
      let p : Player := { id := playerId, name := playerName }
      (p, aset gr.2 gameId { game with players := aset game.players playerId p })

/-- `appendLog(gameId, message)`. -/
def appendLog (reg : Registry) (gameId message : String) : Registry :=
  let gr := createGame reg gameId
  aset gr.2 gameId { gr.1 with log := gr.1.log ++ [message] }

/-- A monster rule from `rules/monsters.json`. -/
structure MonsterAttackRule where
  damage : Option String := none
deriving DecidableEq, Repr

structure MonsterRule where
  armorClass : Option Int := none
  hitPoints : Option Int := none
  hitDice : Option Int := none
  attacks : Option (List MonsterAttackRule) := none
deriving DecidableEq, Repr

/-- The hit points a freshly spawned monster receives:
`monsterStats.hitPoints || (monsterStats.hitDice || 1) * 4`. -/
def spawnHp (stats : MonsterRule) : Int :=
  jsOr stats.hitPoints (jsOr stats.hitDice 1 * 4)

/-- `models.spawnMonster(gameId, monsterType, monsterStats)`.  The unique
instance id (`m_${Date.now()}_${random}` in the source) is supplied as an
oracle parameter. -/
def spawnMonsterM (reg : Registry) (gameId instanceId monsterType : String)
    (stats : MonsterRule) : Monster × Registry :=
  let gr := createGame reg gameId
  let game := gr.1
  let m : Monster :=
    { instanceId := instanceId, type := monsterType,
      hp := spawnHp stats, ac := jsOr stats.armorClass 10, status := "alive" }
  (m, aset gr.2 gameId { game with monsters := aset game.monsters instanceId m })

/-- `getMonster(gameId, instanceId)`. -/
def getMonster (reg : Registry) (gameId instanceId : String) : Option Monster :=
  match alookup reg gameId with
  | none => none
  | some game => alookup game.monsters instanceId

/-- `addItemToPlayer(gameId, playerId, itemId)`: note this CREATES the
game if missing (`createGame`), creates `player.character = {}` and the
inventory array if missing, then appends; returns `null` when the player
is absent. -/
def addItemToPlayer (reg : Registry) (gameId playerId itemId : String) :
    Option Player × Registry :=
  let gr := createGame reg gameId
  let game := gr.1
  match alookup game.players playerId with
  | none => (none, gr.2)
  | some p =>
      let c : Character := match p.character with
        | some c => c
        | none => {}
      let inv : List String := match c.inventory with
        | some l => l
        | none => []
      let c' := { c with inventory := some (inv ++ [itemId]) }
      let p' := { p with character := some c' }
      (some p', aset gr.2 gameId { game with players := aset game.players playerId p' })

/-- Remove the first occurrence of `x` from a list (`Array.splice` at
`indexOf`). -/
def removeFirst : List String → String → List String
  | [], _ => []
  | y :: rest, x => if y = x then rest else y :: removeFirst rest x

/-- `removeItemFromPlayer(gameId, playerId, itemId)`: returns the removed
item id, or `none` (undefined) if the game, player, character, inventory
or item is not found; removes only the first occurrence. -/
def removeItemFromPlayer (reg : Registry) (gameId playerId itemId : String) :
    Option String × Registry :=
  match alookup reg gameId with
  | none => (none, reg)
  | some game =>
      match alookup game.players playerId with
      | none => (none, reg)
      | some p =>
          match p.character with
          | none => (none, reg)
          | some c =>
              match c.inventory with
              | none => (none, reg)
              | some inv =>
                  if itemId ∈ inv then
                    let c' := { c with inventory := some (removeFirst inv itemId) }
                    let p' := { p with character := some c' }
                    (some itemId,
                     aset reg gameId { game with players := aset game.players playerId p' })
                  else (none, reg)

/-- The character payload accepted by `setCharacter` / `createCharacter`:
a JS object carrying any subset of the Character fields that the clients
and controllers supply (the shipped client sends `{name, race, class,
abilityScores}`; `createCharacter` adds `hp`, `ac` and `savingThrows`;
`status` is never part of a creation payload). `some x` means the
property is present with value `x`. -/
structure CharPatch where
  name : Option String := none
  race : Option String := none
  className : Option String := none
  hp : Option Int := none
  ac : Option Int := none
  abilityScores : Option (List (String × Int)) := none
  savingThrows : Option (List (String × Int)) := none
  experience : Option Int := none
  level : Option Int := none
  inventory : Option (List String) := none
deriving DecidableEq, Repr

/-- The spread-merge `{...existing, ...patch}`: patch fields overwrite
exactly when present. -/
def mergeChar (c : Character) (patch : CharPatch) : Character :=
  { name := match patch.name with | some v => some v | none => c.name,
    race := match patch.race with | some v => some v | none => c.race,
    className := match patch.className with | some v => some v | none => c.className,
    hp := match patch.hp with | some v => JVal.num v | none => c.hp,
    ac := match patch.ac with | some v => JVal.num v | none => c.ac,
    abilityScores := match patch.abilityScores with | some v => some v | none => c.abilityScores,
    savingThrows := match patch.savingThrows with | some v => some v | none => c.savingThrows,
    experience := match patch.experience with | some v => some v | none => c.experience,
    level := match patch.level with | some v => some v | none => c.level,
    inventory := match patch.inventory with | some v => some v | none => c.inventory,
    status := c.status }

/-- `setCharacter(gameId, playerId, character)`: create game and player
("Unknown") if missing, merge the payload onto the existing character
(or onto `{}`), then default `experience` to 0 and `level` to 1 only when
the merged field is `undefined`. -/
def setCharacter (reg : Registry) (gameId playerId : String) (patch : CharPatch) :
    Player × Registry :=
  let gr := createGame reg gameId
  let game := gr.1
  let pl : Player := match alookup game.players playerId with
    | some p => p
    | none => { id := playerId, name := "Unknown" }
  let base : Character := match pl.character with
    | some c => c
    | none => {}
  let merged := mergeChar base patch
  let merged := { merged with
    experience := match merged.experience with | some e => some e | none => some 0,
    level := match merged.level with | some l => some l | none => some 1 }
  let p' := { pl with character := some merged }
  (p', aset gr.2 gameId { game with players := aset game.players playerId p' })

/-- One level-up log line (message uses the level AFTER the increment). -/
def levelUpMsg (pname : String) (newLevel : Int) : String :=
  pname ++ " has reached level " ++ toString newLevel ++ "!"

/-- The leveling loop of `addExperience`:
`while (experience >= level*1000) { experience -= level*1000; level += 1; log }`.
Returns the final level, the final experience and the log lines produced,
in order.  (In the source the log lines are appended one by one during
the loop via `appendLog`; since the loop touches only
`character.experience`, `character.level` and the log, appending the
collected lines once afterwards yields the same final state.) -/
def levelLoopP (pname : String) (level exp : Int) : Int × Int × List String :=
  if exp ≥ level * 1000 then
    let r := levelLoopP pname (level + 1) (exp - level * 1000)
    (r.1, r.2.1, levelUpMsg pname (level + 1) :: r.2.2)
  else (level, exp, [])
termination_by ((1 - level).toNat, exp.toNat)
decreasing_by
  simp_wf
  by_cases hl : level ≥ 1
  · apply Prod.Lex.right'
    · omega
    · omega
  · apply Prod.Lex.left
    omega

/-- `addExperience(gameId, playerId, xp)`: add xp to
`(character.experience || 0)`, then run the leveling loop.  When
`character.level` is `undefined` the loop guard compares with `NaN` and
never fires. -/
def addExperience (reg : Registry) (gameId playerId : String) (xp : Int) :
    Option Player × Registry :=
  match alookup reg gameId with
  | none => (none, reg)
  | some game =>
      match alookup game.players playerId with
      | none => (none, reg)
      | some p =>
          match p.character with
          | none => (none, reg)
          | some c =>
              let e0 : Int := (match c.experience with | some e => e | none => 0) + xp
              match c.level with
              | none =>
                  let p' := { p with character := some { c with experience := some e0 } }
                  (some p',
                   aset reg gameId { game with players := aset game.players playerId p' })
              | some lv =>
                  let r := levelLoopP p.name lv e0
                  let c' := { c with experience := some r.2.1, level := some r.1 }
                  let p' := { p with character := some c' }
                  (some p',
                   aset reg gameId
                     { game with players := aset game.players playerId p',
                                 log := game.log ++ r.2.2 })

/-- The `JSON.parse(JSON.stringify(v))` round trip on a numeric field:
`NaN` serialises as `null`; missing properties stay missing; integers and
`null` are stable. -/
def jsonJVal : JVal → JVal
  | JVal.nan => JVal.jnull
  | v => v

/-- The `JSON.parse(JSON.stringify(c))` round trip on a Character: all
fields are JSON-stable except a `NaN` hit-point or armour-class value,
which comes back as `null`. -/
def jsonRoundTripChar (c : Character) : Character :=
  { c with hp := jsonJVal c.hp, ac := jsonJVal c.ac }

/-- `exportCharacter(gameId, playerId)`: a deep copy
(`JSON.parse(JSON.stringify(...))`) of the character, or `null` when the
game, player or character is absent. -/
def exportCharacter (reg : Registry) (gameId playerId : String) : Option Character :=
  match alookup reg gameId with
  | none => none
  | some game =>
      match alookup game.players playerId with
      | none => none
      | some p =>
          match p.character with
          | none => none
          | some c => some (jsonRoundTripChar c)

/-- `getPlayer(gameId, playerId)`. -/
def getPlayer (reg : Registry) (gameId playerId : String) : Option Player :=
  match alookup reg gameId with
  | none => none
  | some game =>
      match alookup game.players playerId with
      | none => none
      | some p => some p

/-! ## Dice (`controllers/index.js` `rollDie`, regex notation parsing) -/

/-- `rollDie(sides)` draws the next pre-drawn outcome from the oracle
list (see the module docstring); an exhausted oracle yields 1. -/
def rollDie (rng : List Nat) : Nat × List Nat :=
  match rng with
  | [] => (1, [])
  | r :: rest => (r, rest)

/-- Decimal value of a digit run (`parseInt` on a nonempty digit string). -/
def digitsToNat : List Char → Nat
  | [] => 0
  | c :: rest => digitsToNat rest + (c.toNat - 48) * 10 ^ rest.length

/-- Try to match the regex `(\d+)d(\d+)(\+(\d+))?` anchored at the head
of the character list; returns (count, sides, optional bonus).  Because a
digit run followed by the literal `d` (resp. `+`) can never be shortened
into another successful match, greedy matching without backtracking is
exactly the JS regex semantics for this pattern. -/
def matchDiceAt (cs : List Char) : Option (Nat × Nat × Option Nat) :=
  let s1 := cs.span Char.isDigit
  if s1.1.isEmpty then none
  else
    match s1.2 with
    | 'd' :: r2 =>
        let s2 := r2.span Char.isDigit
        if s2.1.isEmpty then none
        else
          let count := digitsToNat s1.1
          let sides := digitsToNat s2.1
          match s2.2 with
          | '+' :: r4 =>
              let s3 := r4.span Char.isDigit
              if s3.1.isEmpty then some (count, sides, none)
              else some (count, sides, some (digitsToNat s3.1))
          | _ => some (count, sides, none)
    | _ => none

/-- Leftmost match of `(\d+)d(\d+)(\+(\d+))?` anywhere in the string
(JS `String.match` without anchors). -/
def findDice : List Char → Option (Nat × Nat × Option Nat)
  | [] => none
  | c :: rest =>
      match matchDiceAt (c :: rest) with
      | some m => some m
      | none => findDice rest

/-- Try to match the items-controller regex `(\d+)d(\d+)` (no bonus
group) anchored at the head of the character list. -/
def matchDiceAtNB (cs : List Char) : Option (Nat × Nat) :=
  let s1 := cs.span Char.isDigit
  if s1.1.isEmpty then none
  else
    match s1.2 with
    | 'd' :: r2 =>
        let s2 := r2.span Char.isDigit
        if s2.1.isEmpty then none
        else some (digitsToNat s1.1, digitsToNat s2.1)
    | _ => none

/-- Leftmost match of `(\d+)d(\d+)` anywhere in the string. -/
def findDiceNB : List Char → Option (Nat × Nat)
  | [] => none
  | c :: rest =>
      match matchDiceAtNB (c :: rest) with
      | some m => some m
      | none => findDiceNB rest

/-- Sum of `count` rolls of a `sides`-sided die. -/
def rollDice (count : Nat) (rng : List Nat) : Nat × List Nat :=
  match count with
  | 0 => (0, rng)
  | n + 1 =>
      let r := rollDie rng
      let rest := rollDice n r.2
      (r.1 + rest.1, rest.2)

/-- `rollFromNotation(notation)` of `controllers/spells.js`: parse
`<count>d<sides>[+<bonus>]`, return bonus plus the summed rolls; 0 on a
string with no match. -/
def rollFromNotation (s : String) (rng : List Nat) : Nat × List Nat :=
  match findDice s.toList with
  | none => (0, rng)
  | some (count, sides, bonus) =>
      let r := rollDice count rng
      ((match bonus with | some b => b | none => 0) + r.1, r.2)

/-- The inline heal-dice parse of `useItem` in `controllers/items.js`:
regex `(\d+)d(\d+)` — NO bonus group — summed rolls, 0 on no match. -/
def itemHealRoll (s : String) (rng : List Nat) : Nat × List Nat :=
  match findDiceNB s.toList with
  | none => (0, rng)
  | some (count, _sides) =>
      let r := rollDice count rng
      (r.1, r.2)

/-! ## Rule tables and dialogue data (read-only external collaborators) -/

structure ClassRule where
  hitDie : Option Nat := none
  savingThrows : Option (List (String × Int)) := none
deriving DecidableEq, Repr

structure SpellEffect where
  heal : Option String := none
  damage : Option String := none
deriving DecidableEq, Repr

structure SpellRule where
  name : String
  effect : Option SpellEffect := none
deriving DecidableEq, Repr

structure ItemEffect where
  heal : Option String := none
  acBonus : Option Int := none
deriving DecidableEq, Repr

structure ItemRule where
  name : String
  effect : Option ItemEffect := none
deriving DecidableEq, Repr

structure Reward where
  xp : Option Int := none
  items : Option (List String) := none
deriving DecidableEq, Repr

structure DialogueOption where
  text : String
  next : Option String := none
  reward : Option Reward := none
deriving DecidableEq, Repr

structure DialogueNode where
  text : String
  options : Option (List DialogueOption) := none
deriving DecidableEq, Repr

structure Conversation where
  id : String
  name : String := ""
  start : String
  nodes : List (String × DialogueNode) := []
deriving DecidableEq, Repr

structure DialogueFile where
  id : String
  campaignId : String := ""
  dialogues : Option (List Conversation) := none
deriving DecidableEq, Repr

/-- The read-only external data: the four rule tables of
`rules/index.js`, the campaign files and the dialogue files.  The spells
table is nested caster-class → level → list of spells, and
`findSpellByName` only traverses values in order. -/
structure Env where
  classes : List (String × ClassRule) := []
  spells : List (String × List (String × List SpellRule)) := []
  monsters : List (String × MonsterRule) := []
  items : List (String × ItemRule) := []
  campaigns : List (String × Campaign) := []
  dialogueFiles : List (String × DialogueFile) := []

/-- `findSpellByName(name)`: first spell, in enumeration order over all
classes and levels, whose name matches case-insensitively. -/
def findSpellByName (env : Env) (name : String) : Option SpellRule :=
  let lower := name.toLower
  env.spells.findSome? fun cls =>
    cls.2.findSome? fun lvl =>
      lvl.2.find? fun sp => sp.name.toLower == lower

/-- `getCampaign(id)` (campaign loader): the campaign JSON by id or null. -/
def getCampaign (env : Env) (id : String) : Option Campaign :=
  alookup env.campaigns id

/-- `getDialogue(id)` (dialogue loader). -/
def getDialogue (env : Env) (id : String) : Option DialogueFile :=
  alookup env.dialogueFiles id

/-! ## Combat controller (`controllers/combat.js`) -/

/-- `(target.character && target.character.ac) || 10` — the armour class
used by player-vs-player `attack`: the character's `ac` only when the
character exists and `ac` is a truthy value (nonzero number), else 10. -/
def acAttack (c : Option Character) : Int :=
  match c with
  | none => 10
  | some ch => if ch.ac.truthy then ch.ac.or0 else 10

/-- `(character && typeof character.ac === 'number') ? character.ac : 10`
— the armour class value used by `monsterAttack` and by `castSpell` on a
player target (kept as a `JVal` because a `NaN` ac would flow into the
comparison). -/
def acTyped (c : Option Character) : JVal :=
  match c with
  | none => JVal.num 10
  | some ch => if ch.ac.isNum then ch.ac else JVal.num 10

/-- `roll >= v` for a JS-number armour class: false when `v` is `NaN`. -/
def rollGe (roll : Nat) (v : JVal) : Bool :=
  match v with
  | JVal.num n => (roll : Int) ≥ n
  | _ => false

/-- Apply `damage` to `target.character` exactly as `attack` /
`monsterAttack` do on a hit: materialise `{hp: 0}` when there is no
character, coerce a non-number `hp` to 0 (`typeof`-test — note `NaN`
counts as a number and therefore survives), subtract, and set status
"unconscious" when the new hp compares `<= 0`. -/
def applyDamageToCharacter (c : Option Character) (damage : Nat) : Character :=
  let c0 : Character := match c with
    | some ch => ch
    | none => { hp := JVal.num 0 }
  let hpv : JVal := if c0.hp.isNum then c0.hp else JVal.num 0
  let hpv' := hpv.sub damage
  let c1 := { c0 with hp := hpv' }
  if hpv'.le0 then { c1 with status := some "unconscious" } else c1

/-- Result summary of player-vs-player `attack`.  `targetRemainingHp` is
`jnull` when the target still has no character. -/
structure AttackResult where
  attacker : String
  target : String
  roll : Nat
  hit : Bool
  damage : Nat
  targetRemainingHp : JVal
deriving DecidableEq, Repr

/-- `attack(gameId, attackerId, targetId)` of `controllers/combat.js`. -/
def attack (reg : Registry) (gameId attackerId targetId : String)
    (rng : List Nat) : Except String AttackResult × Registry × List Nat :=
  match alookup reg gameId with
  | none => (.error ("Game " ++ gameId ++ " does not exist"), reg, rng)
  | some game =>
      match alookup game.players attackerId, alookup game.players targetId with
      | some attacker, some target =>
          let targetAC := acAttack target.character
          let r1 := rollDie rng
          let attackRoll := r1.1
          let hit : Bool := (attackRoll : Int) ≥ targetAC
          if hit then
            let r2 := rollDie r1.2
            let damage := r2.1
            let c2 := applyDamageToCharacter target.character damage
            let target' := { target with character := some c2 }
            let game' := { game with players := aset game.players targetId target' }
            (.ok { attacker := attacker.name, target := target.name,
                   roll := attackRoll, hit := true, damage := damage,
                   targetRemainingHp := c2.hp },
             aset reg gameId game', r2.2)
          else
            (.ok { attacker := attacker.name, target := target.name,
                   roll := attackRoll, hit := false, damage := 0,
                   targetRemainingHp := match target.character with
                     | some c => c.hp
                     | none => JVal.jnull },
             reg, r1.2)
      | _, _ => (.error "Attacker or target not found in this game", reg, rng)

/-- Result summary of `attackMonster`. -/
structure AttackMonsterResult where
  attacker : String
  target : String
  roll : Nat
  hit : Bool
  damage : Nat
  monsterRemainingHp : Int
  monsterStatus : String
deriving DecidableEq, Repr

/-- `attackMonster(gameId, attackerId, monsterInstanceId)`: same opposed
roll against `monster.ac || 10`; a monster at `hp <= 0` gets status
"dead" and is deleted from the game's monster map. -/
def attackMonster (reg : Registry) (gameId attackerId monsterInstanceId : String)
    (rng : List Nat) : Except String AttackMonsterResult × Registry × List Nat :=
  match alookup reg gameId with
  | none => (.error ("Game " ++ gameId ++ " does not exist"), reg, rng)
  | some game =>
      match alookup game.players attackerId with
      | none => (.error "Attacker not found in this game", reg, rng)
      | some attacker =>
          match alookup game.monsters monsterInstanceId with
          | none => (.error "Target monster not found in this game", reg, rng)
          | some monster =>
              let targetAC : Int := if monster.ac = 0 then 10 else monster.ac
              let r1 := rollDie rng
              let attackRoll := r1.1
              let hit : Bool := (attackRoll : Int) ≥ targetAC
              if hit then
                let r2 := rollDie r1.2
                let damage := r2.1
                let hp' := monster.hp - damage
                if hp' ≤ 0 then
                  let game' := { game with
                    monsters := aerase game.monsters monsterInstanceId }
                  (.ok { attacker := attacker.name, target := monster.type,
                         roll := attackRoll, hit := true, damage := damage,
                         monsterRemainingHp := hp', monsterStatus := "dead" },
                   aset reg gameId game', r2.2)
                else
                  let game' := { game with
                    monsters := aset game.monsters monsterInstanceId
                      { monster with hp := hp' } }
                  (.ok { attacker := attacker.name, target := monster.type,
                         roll := attackRoll, hit := true, damage := damage,
                         monsterRemainingHp := hp', monsterStatus := monster.status },
                   aset reg gameId game', r2.2)
              else
                (.ok { attacker := attacker.name, target := monster.type,
                       roll := attackRoll, hit := false, damage := 0,
                       monsterRemainingHp := monster.hp,
                       monsterStatus := monster.status },
                 reg, r1.2)

/-- Result summary of `monsterAttack` (monster-vs-player). -/
structure MonsterAttackResult where
  attacker : String
  target : String
  roll : Nat
  hit : Bool
  damage : Nat
  targetRemainingHp : JVal
deriving DecidableEq, Repr

/-- The damage notation of the monster's first attack:
`rule.attacks[0].damage` when the rule exists, has a (nonempty) attacks
array whose first element carries a truthy damage string; else "1d6". -/
def monsterDamageStr (env : Env) (monsterType : String) : String :=
  match alookup env.monsters monsterType with
  | none => "1d6"
  | some rule =>
      match rule.attacks with
      | none => "1d6"
      | some [] => "1d6"
      | some (a :: _) =>
          match a.damage with
          | none => "1d6"
          | some d => if d = "" then "1d6" else d

/-- `monsterAttack(gameId, monsterInstanceId, targetPlayerId)`: damage
from the monster rule's first attack notation (spells-style regex, with
bonus); an unparsable notation falls back to a single d6. -/
def monsterAttack (env : Env) (reg : Registry)
    (gameId monsterInstanceId targetPlayerId : String) (rng : List Nat) :
    Except String MonsterAttackResult × Registry × List Nat :=
  match alookup reg gameId with
  | none => (.error ("Game " ++ gameId ++ " does not exist"), reg, rng)
  | some game =>
      match alookup game.monsters monsterInstanceId,
            alookup game.players targetPlayerId with
      | none, _ => (.error "Monster not found", reg, rng)
      | some _, none => (.error "Target player not found", reg, rng)
      | some monster, some target =>
          let damageStr := monsterDamageStr env monster.type
          let targetAc := acTyped target.character
          let r1 := rollDie rng
          let attackRoll := r1.1
          let hit := rollGe attackRoll targetAc
          if hit then
            let dr : Nat × List Nat :=
              match findDice damageStr.toList with
              | some (count, _, bonus) =>
                  let r := rollDice count r1.2
                  ((match bonus with | some b => b | none => 0) + r.1, r.2)
              | none => rollDie r1.2
            let c2 := applyDamageToCharacter target.character dr.1
            let target' := { target with character := some c2 }
            let game' := { game with players := aset game.players targetPlayerId target' }
            (.ok { attacker := monster.type, target := target.name,
                   roll := attackRoll, hit := true, damage := dr.1,
                   targetRemainingHp := c2.hp },
             aset reg gameId game', dr.2)
          else
            (.ok { attacker := monster.type, target := target.name,
                   roll := attackRoll, hit := false, damage := 0,
                   targetRemainingHp := match target.character with
                     | some c => c.hp
                     | none => JVal.jnull },
             reg, r1.2)

/-! ## Spell controller (`controllers/spells.js`) -/

/-- JS truthiness normalisation of an optional string: the empty string
is falsy, so `some ""` behaves like an absent value in `if (x.y)` tests. -/
def truthyStr : Option String → Option String
  | some "" => none
  | v => v

/-- Structured result of `castSpell` (field subsets per branch mirror the
shapes of the JS result objects). -/
structure SpellResult where
  message : String
  caster : String
  target : Option String := none
  heal : Option Nat := none
  roll : Option Nat := none
  hit : Option Bool := none
  damage : Option Nat := none
  spell : Option String := none
deriving DecidableEq, Repr

/-- `castSpell(gameId, casterId, spellName, targetType, targetId)`.
Heal effects apply only to players (throws on a monster target, after
the heal dice are rolled); damage effects roll an independent d20 to-hit
against the target's armour class; a monster reduced to `hp <= 0` is
removed exactly as in `attackMonster`.  Every successful cast appends
exactly one log line. -/
def castSpell (env : Env) (reg : Registry)
    (gameId casterId spellName targetType targetId : String) (rng : List Nat) :
    Except String SpellResult × Registry × List Nat :=
  match findSpellByName env spellName with
  | none => (.error ("Unknown spell: " ++ spellName), reg, rng)
  | some spell =>
      match alookup reg gameId with
      | none => (.error ("Game " ++ gameId ++ " does not exist"), reg, rng)
      | some game =>
          match alookup game.players casterId with
          | none => (.error "Caster not found", reg, rng)
          | some caster =>
              -- target lookup by targetType ('player' / 'monster' / other)
              let targetP : Option Player :=
                if targetType = "player" then alookup game.players targetId else none
              let targetM : Option Monster :=
                if targetType = "monster" then alookup game.monsters targetId else none
              if targetP.isNone ∧ targetM.isNone then
                (.error "Target not found", reg, rng)
              else
                match spell.effect with
                | some eff =>
                    if hheal : (truthyStr eff.heal).isSome then
                      -- healing branch: `spell.effect.heal` is truthy
                      let hr := rollFromNotation ((truthyStr eff.heal).get hheal) rng
                      let healAmount := hr.1
                      match targetP with
                      | none => (.error "Healing spells can only target players", reg, hr.2)
                      | some target =>
                          let c0 : Character := match target.character with
                            | some c => c
                            | none => { hp := JVal.num 0 }
                          let c' := { c0 with hp := JVal.num (c0.hp.or0 + healAmount) }
                          let target' := { target with character := some c' }
                          let msg := caster.name ++ " casts " ++ spell.name ++ " on " ++
                            target.name ++ ", healing " ++ toString healAmount ++ " HP."
                          let game' := { game with
                            players := aset game.players targetId target' }
                          let game' := { game' with log := game'.log ++ [msg] }
                          (.ok { message := msg, caster := caster.name,
                                 target := some target.name, heal := some healAmount },
                           aset reg gameId game', hr.2)
                    else if hdmg : (truthyStr eff.damage).isSome then
                      let dr := rollFromNotation ((truthyStr eff.damage).get hdmg) rng
                      let damageAmount := dr.1
                      let targetAc : JVal := match targetP with
                        | some p => acTyped p.character
                        | none => match targetM with
                          | some m => JVal.num (if m.ac = 0 then 10 else m.ac)
                          | none => JVal.num 10
                      let r2 := rollDie dr.2
                      let attackRoll := r2.1
                      let hit := rollGe attackRoll targetAc
                      let damageDealt := if hit then damageAmount else 0
                      match targetP with
                      | some target =>
                          let targetName := target.name
                          let msg := if hit then
                              caster.name ++ " casts " ++ spell.name ++ " and hits " ++
                                targetName ++ " for " ++ toString damageDealt ++ " damage."
                            else
                              caster.name ++ " casts " ++ spell.name ++ " but misses " ++
                                targetName ++ "."
                          if hit then
                            let c0 : Character := match target.character with
                              | some c => c
                              | none => { hp := JVal.num 0 }
                            let c1 := { c0 with hp := c0.hp.sub damageDealt }
                            let c2 := if c1.hp.le0 then
                                { c1 with status := some "unconscious" } else c1
                            let target' := { target with character := some c2 }
                            let game' := { game with
                              players := aset game.players targetId target' }
                            let game' := { game' with log := game'.log ++ [msg] }
                            (.ok { message := msg, caster := caster.name,
                                   target := some targetName, roll := some attackRoll,
                                   hit := some true, damage := some damageDealt },
                             aset reg gameId game', r2.2)
                          else
                            let game' := { game with log := game.log ++ [msg] }
                            (.ok { message := msg, caster := caster.name,
                                   target := some targetName, roll := some attackRoll,
                                   hit := some false, damage := some 0 },
                             aset reg gameId game', r2.2)
                      | none =>
                          match targetM with
                          | some monster =>
                              let targetName := monster.type
                              let msg := if hit then
                                  caster.name ++ " casts " ++ spell.name ++ " and hits " ++
                                    targetName ++ " for " ++ toString damageDealt ++ " damage."
                                else
                                  caster.name ++ " casts " ++ spell.name ++ " but misses " ++
                                    targetName ++ "."
                              if hit then
                                let hp' := monster.hp - (damageDealt : Int)
                                let newMonsters :=
                                  if hp' ≤ 0 then aerase game.monsters targetId
                                  else aset game.monsters targetId ({ monster with hp := hp' })
                                let game' := { game with monsters := newMonsters }
                                let game' := { game' with log := game'.log ++ [msg] }
                                (.ok { message := msg, caster := caster.name,
                                       target := some targetName, roll := some attackRoll,
                                       hit := some true, damage := some damageDealt },
                                 aset reg gameId game', r2.2)
                              else
                                let game' := { game with log := game.log ++ [msg] }
                                (.ok { message := msg, caster := caster.name,
                                       target := some targetName, roll := some attackRoll,
                                       hit := some false, damage := some 0 },
                                 aset reg gameId game', r2.2)
                          | none =>
                              -- unreachable: the not-found check above fired
                              (.error "Target not found", reg, r2.2)
                    else
                      let msg := caster.name ++ " casts " ++ spell.name ++
                        ", but nothing happens."
                      let game' := { game with log := game.log ++ [msg] }
                      (.ok { message := msg, caster := caster.name,
                             spell := some spell.name },
                       aset reg gameId game', rng)
                | none =>
                    let msg := caster.name ++ " casts " ++ spell.name ++
                      ", but nothing happens."
                    let game' := { game with log := game.log ++ [msg] }
                    (.ok { message := msg, caster := caster.name,
                           spell := some spell.name },
                     aset reg gameId game', rng)

/-! ## Item controller (`controllers/items.js`) -/

/-- `giveItem(gameId, playerId, itemId)`: throws on an unknown item id;
then `addItemToPlayer` (which CREATES the game if missing) and a log
line `${player.name} obtained ${item.name}.` — when the player is
absent, `addItemToPlayer` returned null and reading `player.name`
raises a TypeError, after the game was already created. -/
def giveItem (env : Env) (reg : Registry) (gameId playerId itemId : String) :
    Except String Player × Registry :=
  match alookup env.items itemId with
  | none => (.error ("Unknown item: " ++ itemId), reg)
  | some item =>
      let ar := addItemToPlayer reg gameId playerId itemId
      match ar.1 with
      | none =>
          (.error "TypeError: Cannot read properties of null (reading name)", ar.2)
      | some player =>
          (.ok player, appendLog ar.2 gameId (player.name ++ " obtained " ++ item.name ++ "."))

/-- Result of `useItem`. -/
structure UseItemResult where
  playerId : String
  itemId : String
  message : String
deriving DecidableEq, Repr

/-- `useItem(gameId, playerId, itemId)`: unknown item throws; the item
is removed from the inventory (first occurrence) and the removal result
is tested for truthiness (`if (!removed)`) — so removing the
empty-string item id also "fails", after the splice already happened.
Heal effects roll the items-regex dice (no bonus group) and add to
`(hp || 0)`; acBonus effects add to ac after a `typeof` test; other
effects consume the item with a neutral message. -/
def useItem (env : Env) (reg : Registry) (gameId playerId itemId : String)
    (rng : List Nat) : Except String UseItemResult × Registry × List Nat :=
  match alookup env.items itemId with
  | none => (.error ("Unknown item: " ++ itemId), reg, rng)
  | some item =>
      let rr := removeItemFromPlayer reg gameId playerId itemId
      let removedTruthy : Bool := match rr.1 with
        | some s => s ≠ ""
        | none => false
      if removedTruthy then
        match getPlayer rr.2 gameId playerId with
        | none => (.error "Player or character missing", rr.2, rng)
        | some player =>
            match player.character with
            | none => (.error "Player or character missing", rr.2, rng)
            | some c =>
                match truthyStr (match item.effect with
                  | some e => e.heal
                  | none => none) with
                | some healStr =>
                    let hr := itemHealRoll healStr rng
                    let heal := hr.1
                    let c' := { c with hp := JVal.num (c.hp.or0 + heal) }
                    let msg := player.name ++ " drinks a " ++ item.name ++
                      " and heals " ++ toString heal ++ " HP."
                    let p' := { player with character := some c' }
                    let reg2 :=
                      match alookup rr.2 gameId with
                      | some g =>
                          aset rr.2 gameId { g with players := aset g.players playerId p' }
                      | none => rr.2
                    (.ok { playerId := playerId, itemId := itemId, message := msg },
                     appendLog reg2 gameId msg, hr.2)
                | none =>
                    match (match item.effect with
                      | some e => e.acBonus
                      | none => none) with
                    | some b =>
                        if b ≠ 0 then
                          let ac0 : JVal := if c.ac.isNum then c.ac else JVal.num 10
                          let ac' : JVal := match ac0 with
                            | JVal.num n => JVal.num (n + b)
                            | v => v
                          let c' := { c with ac := ac' }
                          let msg := player.name ++ " equips a " ++ item.name ++
                            " and gains +" ++ toString b ++ " armour class."
                          let p' := { player with character := some c' }
                          let reg2 :=
                            match alookup rr.2 gameId with
                            | some g =>
                                aset rr.2 gameId
                                  { g with players := aset g.players playerId p' }
                            | none => rr.2
                          (.ok { playerId := playerId, itemId := itemId, message := msg },
                           appendLog reg2 gameId msg, rng)
                        else
                          let msg := player.name ++ " uses " ++ item.name ++
                            ", but nothing happens."
                          (.ok { playerId := playerId, itemId := itemId, message := msg },
                           appendLog rr.2 gameId msg, rng)
                    | none =>
                        let msg := player.name ++ " uses " ++ item.name ++
                          ", but nothing happens."
                        (.ok { playerId := playerId, itemId := itemId, message := msg },
                         appendLog rr.2 gameId msg, rng)
      else
        (.error "Item not in inventory", rr.2, rng)

/-! ## Monster controller (`controllers/monster.js`) -/

/-- `spawnMonster(gameId, monsterType)` (controller): validate the type
against the monster rules, then delegate to the registry and log
"A ... appears!".  The generated instance id is an oracle parameter. -/
def spawnMonsterC (env : Env) (reg : Registry)
    (gameId monsterType instanceId : String) : Except String Monster × Registry :=
  match alookup env.monsters monsterType with
  | none => (.error ("Unknown monster type: " ++ monsterType), reg)
  | some rules =>
      let mr := spawnMonsterM reg gameId instanceId monsterType rules
      (.ok mr.1, appendLog mr.2 gameId ("A " ++ monsterType ++ " appears!"))

/-! ## Core controller (`controllers/index.js`) -/

/-- `joinGame(gameId, playerId, playerName)`: `addPlayer` (idempotent by
key) plus a join log line. -/
def joinGame (reg : Registry) (gameId playerId playerName : String) :
    Player × Registry :=
  let pr := addPlayer reg gameId playerId playerName
  (pr.1, appendLog pr.2 gameId (playerName ++ " joined the game."))

/-- `createCharacter(gameId, playerId, character)`: roll hp from the
class rule's hit die when available, default `ac` (falsy test: absent or
0 becomes 10), default ability scores and saving throws, then
`setCharacter` and one log line. -/
def createCharacter (env : Env) (reg : Registry) (gameId playerId : String)
    (patch : CharPatch) (rng : List Nat) : Player × Registry × List Nat :=
  let clsKey := (match patch.className with | some s => s | none => "").toLower
  let rule := alookup env.classes clsKey
  let hd : Option Nat := match rule with
    | some r => (match r.hitDie with
        | some d => if d = 0 then none else some d
        | none => none)
    | none => none
  let pr : CharPatch × List Nat := match hd with
    | some _ =>
        let r := rollDie rng
        ({ patch with hp := some (r.1 : Int) }, r.2)
    | none => (patch, rng)
  let patch1 := pr.1
  let patch2 := match patch1.ac with
    | some a => if a = 0 then { patch1 with ac := some 10 } else patch1
    | none => { patch1 with ac := some 10 }
  let defaultScores : List (String × Int) :=
    [("str", 10), ("dex", 10), ("con", 10), ("int", 10), ("wis", 10), ("cha", 10)]
  let patch3 := match patch2.abilityScores with
    | some _ => patch2
    | none => { patch2 with abilityScores := some defaultScores }
  let placeholderSaves : List (String × Int) :=
    [("deathRay", 12), ("magic", 12), ("paralysis", 12)]
  let patch4 := match rule with
    | some r => (match r.savingThrows with
        | some st => { patch3 with savingThrows := some st }
        | none => (match patch3.savingThrows with
            | some _ => patch3
            | none => { patch3 with savingThrows := some placeholderSaves }))
    | none => (match patch3.savingThrows with
        | some _ => patch3
        | none => { patch3 with savingThrows := some placeholderSaves })
  let sr := setCharacter reg gameId playerId patch4
  let player := sr.1
  let race := match patch4.race with | some r => r | none => "unknown race"
  let cls := match patch4.className with | some c => c | none => "unknown class"
  let nameStr := match patch4.name with | some n => n | none => "undefined"
  let hpStr := match patch4.hp with
    | some n => if n = 0 then "?" else toString n
    | none => "?"
  let msg := player.name ++ " created a character: " ++ nameStr ++ " (" ++ race ++
    " " ++ cls ++ ") with " ++ hpStr ++ " HP."
  (player, appendLog sr.2 gameId msg, pr.2)

/-- `selectCampaign(gameId, campaignId)`: throws on an unknown campaign,
else attaches the campaign to the (created-if-needed) game and logs. -/
def selectCampaign (env : Env) (reg : Registry) (gameId campaignId : String) :
    Except String Campaign × Registry :=
  match getCampaign env campaignId with
  | none => (.error ("Campaign " ++ campaignId ++ " does not exist"), reg)
  | some campaign =>
      let gr := createGame reg gameId
      let reg1 := aset gr.2 gameId { gr.1 with campaign := some campaign }
      (.ok { id := campaign.id, name := campaign.name,
             description := campaign.description },
       appendLog reg1 gameId ("Campaign " ++ campaign.name ++ " selected."))

/-! ## Dialogue controller (`controllers/dialogue.js`) -/

/-- Result of `startDialogue` / a non-terminal `chooseDialogueOption`. -/
structure DialogueStep where
  isEnd : Bool := false
  dialogueId : String := ""
  conversationId : String := ""
  nodeId : String := ""
  text : String := ""
  options : List String := []
deriving DecidableEq, Repr

/-- `startDialogue(gameId, playerId, dialogueId, conversationId)`:
read-only; returns the conversation's start node text and option texts,
throwing when the file, conversation or start node is missing. -/
def startDialogue (env : Env) (dialogueId conversationId : String) :
    Except String DialogueStep :=
  match getDialogue env dialogueId with
  | none => .error ("Dialogue file " ++ dialogueId ++ " not found")
  | some file =>
      let convs : List Conversation := match file.dialogues with | some l => l | none => []
      match convs.find? (fun d => d.id == conversationId) with
      | none => .error ("Dialogue " ++ conversationId ++ " not found in file " ++ dialogueId)
      | some conv =>
          match alookup conv.nodes conv.start with
          | none => .error ("Start node " ++ conv.start ++ " not found in dialogue " ++
              conversationId)
          | some node =>
              let opts : List DialogueOption :=
                match node.options with | some l => l | none => []
              .ok { dialogueId := dialogueId, conversationId := conversationId,
                    nodeId := conv.start, text := node.text,
                    options := opts.map (fun o => o.text) }

/-- Process the item list of a dialogue reward: each item is added via
`addItemToPlayer` (which creates the game if absent!) and logged with the
player's name re-fetched from the registry — a missing player makes that
re-fetch null and raises a TypeError. -/
def rewardItems (reg : Registry) (gameId playerId : String) :
    List String → Except String Registry
  | [] => .ok reg
  | it :: rest =>
      let ar := addItemToPlayer reg gameId playerId it
      match getPlayer ar.2 gameId playerId with
      | none => .error "TypeError: Cannot read properties of null (reading name)"
      | some pl =>
          rewardItems (appendLog ar.2 gameId (pl.name ++ " received item " ++ it ++ "."))
            gameId playerId rest

/-- `chooseDialogueOption(gameId, playerId, dialogueId, conversationId,
nodeId, optionIndex)`: validates file, conversation, node and option
index; applies the optional reward (xp then items, each logged); then
returns the next node, or `{end:true}` when `next` is falsy or
dangling. -/
def chooseDialogueOption (env : Env) (reg : Registry)
    (gameId playerId dialogueId conversationId nodeId : String) (optionIndex : Nat) :
    Except String DialogueStep × Registry :=
  match getDialogue env dialogueId with
  | none => (.error ("Dialogue file " ++ dialogueId ++ " not found"), reg)
  | some file =>
      let convs : List Conversation := match file.dialogues with | some l => l | none => []
      match convs.find? (fun d => d.id == conversationId) with
      | none =>
          (.error ("Dialogue " ++ conversationId ++ " not found in file " ++ dialogueId), reg)
      | some conv =>
          match alookup conv.nodes nodeId with
          | none =>
              (.error ("Node " ++ nodeId ++ " not found in dialogue " ++ conversationId), reg)
          | some node =>
              let options := match node.options with | some l => l | none => []
              match options.get? optionIndex with
              | none =>
                  (.error ("Option index " ++ toString optionIndex ++
                    " is invalid for node " ++ nodeId), reg)
              | some opt =>
                  -- reward processing
                  let afterXp : Except String Registry :=
                    match opt.reward with
                    | none => .ok reg
                    | some rw =>
                        match rw.xp with
                        | some x =>
                            if x ≠ 0 then
                              let er := addExperience reg gameId playerId x
                              match getPlayer er.2 gameId playerId with
                              | none => .error
                                  "TypeError: Cannot read properties of null (reading name)"
                              | some pl => .ok (appendLog er.2 gameId
                                  (pl.name ++ " gained " ++ toString x ++ " XP."))
                            else .ok reg
                        | none => .ok reg
                  match afterXp with
                  | .error e => (.error e, (addExperience reg gameId playerId
                      (match opt.reward with
                        | some rw => match rw.xp with | some x => x | none => 0
                        | none => 0)).2)
                  | .ok reg1 =>
                      let afterItems : Except String Registry × Registry :=
                        match opt.reward with
                        | none => (.ok reg1, reg1)
                        | some rw =>
                            match rw.items with
                            | some items =>
                                (rewardItems reg1 gameId playerId items, reg1)
                            | none => (.ok reg1, reg1)
                      match afterItems.1 with
                      | .error e =>
                          -- state when the TypeError escapes: the game was
                          -- created by the first addItemToPlayer, no other
                          -- mutation occurred (the player was absent)
                          (.error e, (addItemToPlayer reg1 gameId playerId
                            (match opt.reward with
                              | some rw => match rw.items with
                                | some (it :: _) => it
                                | _ => ""
                              | none => "")).2)
                      | .ok reg2 =>
                          match opt.next with
                          | none => (.ok { isEnd := true }, reg2)
                          | some nextId =>
                              if nextId = "" then (.ok { isEnd := true }, reg2)
                              else
                                match alookup conv.nodes nextId with
                                | none => (.ok { isEnd := true }, reg2)
                                | some nxt =>
                                    let opts : List DialogueOption :=
                                      match nxt.options with | some l => l | none => []
                                    (.ok { dialogueId := dialogueId,
                                           conversationId := conversationId,
                                           nodeId := nextId, text := nxt.text,
                                           options := opts.map (fun o => o.text) },
                                     reg2)

/-! ## The operation alphabet and reachable registry states

Each exposed engine operation (§6 of the spec), with its inputs and the
oracle data (pre-drawn die rolls, generated monster instance ids) it
consumes.  `applyOp` runs the operation and keeps the final registry —
including whatever mutations preceded a thrown error. -/

inductive Op where
  | join (gameId playerId name : String)
  | createChar (gameId playerId : String) (patch : CharPatch) (rng : List Nat)
  | selectCamp (gameId campaignId : String)
  | spawn (gameId monsterType instanceId : String)
  | atk (gameId attackerId targetId : String) (rng : List Nat)
  | atkMonster (gameId attackerId instanceId : String) (rng : List Nat)
  | mAtk (gameId instanceId targetId : String) (rng : List Nat)
  | cast (gameId casterId spellName targetType targetId : String) (rng : List Nat)
  | give (gameId playerId itemId : String)
  | use (gameId playerId itemId : String) (rng : List Nat)
  | startDlg (gameId playerId dialogueId convId : String)
  | choose (gameId playerId dialogueId convId nodeId : String) (idx : Nat)

/-- Run one operation against the registry, keeping the resulting
registry state (errors included: the registry is as the exception left
it). -/
def applyOp (env : Env) (reg : Registry) : Op → Registry
  | .join gameId playerId name => (joinGame reg gameId playerId name).2
  | .createChar gameId playerId patch rng =>
      (createCharacter env reg gameId playerId patch rng).2.1
  | .selectCamp gameId campaignId => (selectCampaign env reg gameId campaignId).2
  | .spawn gameId monsterType instanceId =>
      (spawnMonsterC env reg gameId monsterType instanceId).2
  | .atk gameId attackerId targetId rng => (attack reg gameId attackerId targetId rng).2.1
  | .atkMonster gameId attackerId instanceId rng =>
      (attackMonster reg gameId attackerId instanceId rng).2.1
  | .mAtk gameId instanceId targetId rng =>
      (monsterAttack env reg gameId instanceId targetId rng).2.1
  | .cast gameId casterId spellName targetType targetId rng =>
      (castSpell env reg gameId casterId spellName targetType targetId rng).2.1
  | .give gameId playerId itemId => (giveItem env reg gameId playerId itemId).2
  | .use gameId playerId itemId rng => (useItem env reg gameId playerId itemId rng).2.1
  | .startDlg _ _ _ _ => reg
  | .choose gameId playerId dialogueId convId nodeId idx =>
      (chooseDialogueOption env reg gameId playerId dialogueId convId nodeId idx).2

/-- Registry states reachable from the empty registry by engine
operations. -/
inductive Reachable (env : Env) : Registry → Prop where
  | init : Reachable env []
  | step {reg : Registry} (op : Op) : Reachable env reg → Reachable env (applyOp env reg op)

/-! ## State accessors and generic evolution lemmas -/

/-- The character stored for player `pid` of game `gid`, if any. -/
def charOf (reg : Registry) (gid pid : String) : Option Character :=
  match alookup reg gid with
  | none => none
  | some g =>
      match alookup g.players pid with
      | none => none
      | some p => p.character

/-- The status field of that character. -/
def statusOf (reg : Registry) (gid pid : String) : Option String :=
  (charOf reg gid pid).bind Character.status

/-- Whether that character's hit points compare `<= 0` (false when there
is no character, or hp is undefined or `NaN`). -/
def hpLe0At (reg : Registry) (gid pid : String) : Bool :=
  match charOf reg gid pid with
  | some c => c.hp.le0
  | none => false

/-! ## C4: the leveling loop -/

/-- Total experience consumed by levelling from `lo` up to (excluding)
`hi`: `lo*1000 + (lo+1)*1000 + ... + (hi-1)*1000`. -/
def spent (lo hi : Int) : Int :=
  if lo < hi then lo * 1000 + spent (lo + 1) hi else 0
termination_by (hi - lo).toNat
decreasing_by
  simp_wf
  omega

/-! ## C10: termination of the leveling loop -/

/-- Fuel-indexed version of the leveling loop: `none` when the fuel runs
out before the loop exits.  Used to express termination of the source's
`while` loop as stabilisation under sufficient fuel. -/
def levelLoopFuel (pname : String) : Nat → Int → Int → Option (Int × Int × List String)
  | 0, _, _ => none
  | fuel + 1, level, exp =>
      if exp ≥ level * 1000 then
        match levelLoopFuel pname fuel (level + 1) (exp - level * 1000) with
        | none => none
        | some r => some (r.1, r.2.1, levelUpMsg pname (level + 1) :: r.2.2)
      else some (level, exp, [])

/-! ## C1 and C9: the player-vs-player attack -/

/-- The integer the engine treats the target's current hit points as
when applying damage (`{hp: 0}` materialisation plus the `typeof`
coercion); meaningful when the stored hp is not `NaN`. -/
def hpCoerced (c : Option Character) : Int :=
  match c with
  | none => 0
  | some ch =>
      match ch.hp with
      | JVal.num n => n
      | _ => 0

/-- Concrete fixture: a game with attacker "a" and a target "t" whose
Character has armour class 0 (integer) and 5 hit points. -/
def regAcZero : Registry :=
  [("g", { id := "g", players :=
    [("a", { id := "a", name := "A" }),
     ("t", { id := "t", name := "T",
             character := some { hp := JVal.num 5, ac := JVal.num 0 } })] })]

/-- Concrete fixture: the target Character for the C1 witness. -/
def tgtChar12 : Character := { hp := JVal.num 10, ac := JVal.num 12 }

/-- Concrete fixture: a game whose target has AC 12 and 10 hp. -/
def regAc12 : Registry :=
  [("g", { id := "g", players :=
    [("a", { id := "a", name := "A" }),
     ("t", { id := "t", name := "T", character := some tgtChar12 })] })]

/-- Concrete fixture: a game whose target player has no Character. -/
def gameNoChar : Game :=
  { id := "g", players :=
    [("a", { id := "a", name := "A" }),
     ("t", { id := "t", name := "T" })] }

/-- Concrete fixture: registry holding `gameNoChar`. -/
def regNoChar : Registry := [("g", gameNoChar)]

/-! ## C8: export isolation

To make the deep-copy property non-vacuous we model the JS reference
semantics of `JSON.parse(JSON.stringify(character))` explicitly: a small
heap of character cells and array cells (the nested `inventory` array is
itself a reference).  The round trip allocates FRESH cells carrying the
(JSON-normalised) content. -/

/-- Lookup in a Nat-keyed association list (heap). -/
def nlookup {α : Type} : List (Nat × α) → Nat → Option α
  | [], _ => none
  | (k, v) :: rest, key => if key = k then some v else nlookup rest key

/-- In-place update of a Nat-keyed association list. -/
def nset {α : Type} : List (Nat × α) → Nat → α → List (Nat × α)
  | [], key, v => [(key, v)]
  | (k, w) :: rest, key, v =>
      if key = k then (k, v) :: rest else (k, w) :: nset rest key v

/-- Largest key of a heap (0 when empty). -/
def maxKey {α : Type} (l : List (Nat × α)) : Nat :=
  l.foldr (fun p m => max p.1 m) 0

/-- A reference guaranteed not to occur in the heap. -/
def freshRef {α : Type} (l : List (Nat × α)) : Nat := maxKey l + 1

/-- A character record as laid out on the JS heap: scalar fields plus a
reference to the inventory array cell (when an inventory exists). -/
structure HChar where
  hp : JVal := JVal.undef
  ac : JVal := JVal.undef
  status : Option String := none
  inv : Option Nat := none
deriving DecidableEq, Repr

/-- The two-level heap: character cells and string-array cells. -/
structure JHeap where
  chars : List (Nat × HChar) := []
  arrs : List (Nat × List String) := []

/-- Heap-level model of `JSON.parse(JSON.stringify(character))` as
performed by `exportCharacter`: the live cell `r` is read, a fresh array
cell receives a copy of the inventory contents (when present), and a
fresh character cell receives the JSON-normalised scalar fields
(`NaN ↦ null`) plus the new array reference. -/
def exportCharacterHeap (h : JHeap) (r : Nat) : Option (Nat × JHeap) :=
  match nlookup h.chars r with
  | none => none
  | some c =>
      let arrPart : Option Nat × List (Nat × List String) :=
        match c.inv with
        | none => (none, h.arrs)
        | some ar =>
            (some (freshRef h.arrs),
             h.arrs ++ [(freshRef h.arrs, (nlookup h.arrs ar).getD [])])
      let nc := freshRef h.chars
      some (nc,
        { chars := h.chars ++
            [(nc, { hp := jsonJVal c.hp, ac := jsonJVal c.ac,
                    status := c.status, inv := arrPart.1 })],
          arrs := arrPart.2 })

/-- Overwrite a character cell (external mutation of an object). -/
def writeChar (h : JHeap) (r : Nat) (v : HChar) : JHeap :=
  { h with chars := nset h.chars r v }

/-- Overwrite an array cell (external mutation of a nested array). -/
def writeArr (h : JHeap) (r : Nat) (xs : List String) : JHeap :=
  { h with arrs := nset h.arrs r xs }

/-- Concrete fixture: a game whose player's character carries a `NaN`
hit-point value (reachable: a damage spell hitting a character whose hp
field was never set). -/
def regNanHp : Registry :=
  [("g", { id := "g", players :=
    [("p", { id := "p", name := "P", character := some { hp := JVal.nan } })] })]

/-- Concrete fixture: a registry with an ordinary (NaN-free) character. -/
def regPlain : Registry :=
  [("g", { id := "g", players :=
    [("p", { id := "p", name := "P",
             character := some { hp := JVal.num 7, ac := JVal.num 12,
                                 inventory := some ["sword"] } })] })]

/-- Concrete fixture: a two-cell heap — character cell 1 whose inventory
is array cell 5. -/
def heapPlain : JHeap :=
  { chars := [(1, { hp := JVal.num 7, inv := some 5 })],
    arrs := [(5, ["sword"])] }

/-! ## C6: atomicity on failure — the giveItem counterexample

`giveItem` on a known item validates nothing else before calling
`addItemToPlayer`, which `createGame`s the requested game; when the
player is absent the controller then dereferences the null return
(`player.name`) and the TypeError escapes AFTER the empty game was
registered. -/

/-- Concrete fixture: an item table holding one potion. -/
def envPotion : Env :=
  { items := [("potion", { name := "Potion of Healing",
                           effect := some { heal := some "1d8" } })] }

/-! ## C2: the unconsciousness invariant -/

/-- The operations that apply weapon/spell damage to characters:
player-vs-player attack, monster-vs-player attack, and a cast of a spell
whose (first-match) rule carries a damage effect and no heal effect (the
heal branch is checked first in the source). -/
def IsDamageOp (env : Env) : Op → Prop
  | .atk _ _ _ _ => True
  | .mAtk _ _ _ _ => True
  | .cast _ _ spellName _ _ _ =>
      match findSpellByName env spellName with
      | some sp =>
          match sp.effect with
          | some eff => truthyStr eff.heal = none ∧ (truthyStr eff.damage).isSome = true
          | none => False
      | none => False
  | _ => False

/-- One engine step either leaves a character's status field unchanged,
or (for a damage-applying operation) sets it to "unconscious" with the
resulting hit points comparing ≤ 0. -/
def StatusEvolution (env : Env) (op : Op) (reg : Registry) : Prop :=
  ∀ gid pid,
    statusOf (applyOp env reg op) gid pid = statusOf reg gid pid ∨
    (statusOf (applyOp env reg op) gid pid = some "unconscious" ∧
     hpLe0At (applyOp env reg op) gid pid = true ∧ IsDamageOp env op)

def uncChar : Character := { hp := JVal.num 1, status := some "unconscious" }

def regUnc : Registry :=
  [("g1", { id := "g1", players :=
    [("p1", { id := "p1", name := "Al", character := some uncChar })] })]

/-! ## C3: the monster mapping invariant -/

/-- The monster mapping of game `g`, if the game exists. -/
def monstersOf (reg : Registry) (g : String) : Option (List (String × Monster)) :=
  (alookup reg g).map Game.monsters

/-- A well-formed monster mapping: no duplicate instance ids, and every
present monster has positive hit points and status "alive". -/
def MonsterMapWF (ms : List (String × Monster)) : Prop :=
  KeysNodup ms ∧ ∀ iid m, alookup ms iid = some m → 0 < m.hp ∧ m.status = "alive"

/-- Every game's monster mapping is well formed. -/
def MonstersWF (reg : Registry) : Prop :=
  ∀ g ms, monstersOf reg g = some ms → MonsterMapWF ms

/-- Environments whose monster rules always spawn with positive hit
points (`monsterStats.hitPoints || (monsterStats.hitDice || 1) * 4`). -/
def EnvMonstersWF (env : Env) : Prop :=
  ∀ mt rules, alookup env.monsters mt = some rules → 0 < spawnHp rules

/-- One step leaves every game's monster mapping unchanged, except that
it may create a game (whose mapping is empty). -/
def MonstersPreserved (reg reg' : Registry) : Prop :=
  ∀ g, monstersOf reg' g = monstersOf reg g ∨ monstersOf reg' g = some []

def goblinMon : Monster :=
  { instanceId := "m1", type := "goblin", hp := 3, ac := 0, status := "alive" }

def gameGoblin : Game :=
  { id := "g1", players := [("p1", { id := "p1", name := "Al" })],
    monsters := [("m1", goblinMon)] }

def regGoblin : Registry := [("g1", gameGoblin)]

def atkGoblinRes : AttackMonsterResult :=
  { attacker := "Al", target := "goblin", roll := 20, hit := true, damage := 6,
    monsterRemainingHp := -3, monsterStatus := "dead" }

theorem alookup_aset {α : Type} (l : List (String × α)) (k key : String) (v : α) :
    alookup (aset l key v) k = if k = key then some v else alookup l k := by
  induction l with
  | nil => simp only [aset, alookup]
  | cons hd tl ih =>
      obtain ⟨k', w⟩ := hd
      simp only [aset]
      by_cases h1 : key = k'
      · rw [if_pos h1]
        subst h1
        simp only [alookup]
        by_cases h2 : k = key
        · rw [if_pos h2, if_pos h2]
        · rw [if_neg h2, if_neg h2, if_neg h2]
      · rw [if_neg h1]
        simp only [alookup, ih]
        by_cases h2 : k = k'
        · have h3 : ¬ k = key := fun h => h1 (h.symm.trans h2)
          rw [if_pos h2, if_neg h3, if_pos h2]
        · rw [if_neg h2]
          by_cases h3 : k = key
          · rw [if_pos h3, if_pos h3]
          · rw [if_neg h3, if_neg h3, if_neg h2]

theorem mem_keys_aset {α : Type} (l : List (String × α)) (key k' : String) (v : α)
    (h : k' ∈ (aset l key v).map Prod.fst) : k' ∈ l.map Prod.fst ∨ k' = key := by
  induction l with
  | nil =>
      simp only [aset, List.map_cons, List.map_nil, List.mem_singleton] at h
      exact Or.inr h
  | cons hd tl ih =>
      obtain ⟨k2, v2⟩ := hd
      simp only [aset] at h
      by_cases h2 : key = k2
      · rw [if_pos h2] at h
        simp only [List.map_cons, List.mem_cons] at h
        rcases h with h3 | h3
        · exact Or.inl (by simp only [List.map_cons, List.mem_cons]; exact Or.inl h3)
        · exact Or.inl (by simp only [List.map_cons, List.mem_cons]; exact Or.inr h3)
      · rw [if_neg h2] at h
        simp only [List.map_cons, List.mem_cons] at h
        rcases h with h3 | h3
        · exact Or.inl (by simp only [List.map_cons, List.mem_cons]; exact Or.inl h3)
        · rcases ih h3 with h4 | h4
          · exact Or.inl (by simp only [List.map_cons, List.mem_cons]; exact Or.inr h4)
          · exact Or.inr h4

theorem mem_keys_aerase {α : Type} (l : List (String × α)) (key k' : String)
    (h : k' ∈ (aerase l key).map Prod.fst) : k' ∈ l.map Prod.fst := by
  induction l with
  | nil => simp only [aerase] at h; exact h
  | cons hd tl ih =>
      obtain ⟨k2, v2⟩ := hd
      simp only [aerase] at h
      by_cases h2 : key = k2
      · rw [if_pos h2] at h
        simp only [List.map_cons, List.mem_cons]
        exact Or.inr h
      · rw [if_neg h2] at h
        simp only [List.map_cons, List.mem_cons] at h ⊢
        rcases h with h3 | h3
        · exact Or.inl h3
        · exact Or.inr (ih h3)

theorem keysNodup_aset {α : Type} (l : List (String × α)) (key : String) (v : α)
    (h : KeysNodup l) : KeysNodup (aset l key v) := by
  induction l with
  | nil => simp [aset, KeysNodup]
  | cons hd tl ih =>
      obtain ⟨k', w⟩ := hd
      unfold KeysNodup at h
      simp only [List.map_cons, List.nodup_cons] at h
      unfold KeysNodup
      simp only [aset]
      by_cases h1 : key = k'
      · rw [if_pos h1]
        subst h1
        simp only [List.map_cons, List.nodup_cons]
        exact h
      · rw [if_neg h1]
        simp only [List.map_cons, List.nodup_cons]
        refine ⟨?_, ih h.2⟩
        intro hmem
        rcases mem_keys_aset tl key k' v hmem with h3 | h3
        · exact h.1 h3
        · exact h1 h3.symm

theorem keysNodup_aerase {α : Type} (l : List (String × α)) (key : String)
    (h : KeysNodup l) : KeysNodup (aerase l key) := by
  induction l with
  | nil => simp [aerase, KeysNodup]
  | cons hd tl ih =>
      obtain ⟨k', w⟩ := hd
      unfold KeysNodup at h
      simp only [List.map_cons, List.nodup_cons] at h
      unfold KeysNodup
      simp only [aerase]
      by_cases h1 : key = k'
      · rw [if_pos h1]
        exact h.2
      · rw [if_neg h1]
        simp only [List.map_cons, List.nodup_cons]
        exact ⟨fun hmem => h.1 (mem_keys_aerase tl key k' hmem), ih h.2⟩

theorem alookup_none_of_not_mem_keys {α : Type} (l : List (String × α)) (k : String)
    (h : k ∉ l.map Prod.fst) : alookup l k = none := by
  induction l with
  | nil => rfl
  | cons hd tl ih =>
      obtain ⟨k2, v2⟩ := hd
      simp only [List.map_cons, List.mem_cons] at h
      push_neg at h
      simp only [alookup, if_neg h.1]
      exact ih h.2

theorem alookup_aerase {α : Type} (l : List (String × α)) (k key : String)
    (h : KeysNodup l) :
    alookup (aerase l key) k = if k = key then none else alookup l k := by
  induction l with
  | nil => simp only [aerase, alookup, ite_self]
  | cons hd tl ih =>
      obtain ⟨k', w⟩ := hd
      unfold KeysNodup at h
      simp only [List.map_cons, List.nodup_cons] at h
      simp only [aerase]
      by_cases h1 : key = k'
      · rw [if_pos h1]
        subst h1
        by_cases h2 : k = key
        · rw [if_pos h2]
          subst h2
          exact alookup_none_of_not_mem_keys tl k h.1
        · rw [if_neg h2]
          simp only [alookup]
          rw [if_neg h2]
      · rw [if_neg h1]
        simp only [alookup, ih h.2]
        by_cases h2 : k = k'
        · have h3 : ¬ k = key := fun hk => h1 (hk.symm.trans h2)
          rw [if_pos h2, if_neg h3, if_pos h2]
        · rw [if_neg h2]
          by_cases h3 : k = key
          · rw [if_pos h3, if_pos h3]
          · rw [if_neg h3, if_neg h3, if_neg h2]

theorem charOf_aset_game (reg : Registry) (gid : String) (g' : Game) (gid' pid' : String) :
    charOf (aset reg gid g') gid' pid' =
      if gid' = gid then
        (match alookup g'.players pid' with
          | none => none
          | some p => p.character)
      else charOf reg gid' pid' := by
  unfold charOf
  rw [alookup_aset]
  by_cases h : gid' = gid
  · rw [if_pos h, if_pos h]
  · rw [if_neg h, if_neg h]

theorem charOf_createGame (reg : Registry) (g : String) (gid' pid' : String) :
    charOf ((createGame reg g).2) gid' pid' = charOf reg gid' pid' := by
  unfold createGame
  cases hg : alookup reg g with
  | some game => rfl
  | none =>
      simp only
      rw [charOf_aset_game]
      by_cases h : gid' = g
      · rw [if_pos h]
        unfold charOf
        rw [h, hg]
        rfl
      · rw [if_neg h]

theorem charOf_appendLog (reg : Registry) (g m : String) (gid' pid' : String) :
    charOf (appendLog reg g m) gid' pid' = charOf reg gid' pid' := by
  unfold appendLog createGame
  cases hg : alookup reg g with
  | some game =>
      simp only
      rw [charOf_aset_game]
      by_cases h : gid' = g
      · rw [if_pos h]
        unfold charOf
        rw [h, hg]
      · rw [if_neg h]
  | none =>
      simp only
      rw [charOf_aset_game]
      by_cases h : gid' = g
      · rw [if_pos h]
        unfold charOf
        rw [h, hg]
        rfl
      · rw [if_neg h]
        unfold charOf
        rw [alookup_aset, if_neg h]

/-! ## C7: idempotent join, first write wins -/

theorem countP_key_eq_zero_of_alookup_none {α : Type} (l : List (String × α))
    (k : String) (h : alookup l k = none) :
    l.countP (fun q => q.1 == k) = 0 := by
  induction l with
  | nil => rfl
  | cons hd tl ih =>
      obtain ⟨k2, v2⟩ := hd
      simp only [alookup] at h
      by_cases h2 : k = k2
      · rw [if_pos h2] at h
        cases h
      · rw [if_neg h2] at h
        rw [List.countP_cons]
        have : ((k2, v2).1 == k) = false := by
          simp only [beq_eq_false_iff_ne, ne_eq]
          intro h3
          exact h2 h3.symm
        rw [ih h]
        simp [this]

theorem countP_aset_of_alookup_none {α : Type} (l : List (String × α))
    (k : String) (v : α) (h : alookup l k = none) :
    (aset l k v).countP (fun q => q.1 == k) = 1 := by
  induction l with
  | nil => simp [aset, List.countP_cons]
  | cons hd tl ih =>
      obtain ⟨k2, v2⟩ := hd
      simp only [alookup] at h
      by_cases h2 : k = k2
      · rw [if_pos h2] at h
        cases h
      · rw [if_neg h2] at h
        simp only [aset]
        rw [if_neg h2]
        rw [List.countP_cons]
        have : ((k2, v2).1 == k) = false := by
          simp only [beq_eq_false_iff_ne, ne_eq]
          intro h3
          exact h2 h3.symm
        rw [ih h]
        simp [this]

/-- **C7** — Idempotent join, first write wins: joining twice with the
same (gameId, playerId) but different names (starting from a state where
the player is not yet in the game) leaves exactly one player entry for
that id, carrying the first name; the second call neither overwrites the
name nor adds a player (the game's whole player list is unchanged by the
second call). -/
theorem join_idempotent_first_write_wins
    (reg : Registry) (gameId playerId name1 name2 : String)
    (hne : name1 ≠ name2)
    (hfresh : ∀ g, alookup reg gameId = some g → alookup g.players playerId = none) :
    ∃ g1 g2,
      alookup (joinGame reg gameId playerId name1).2 gameId = some g1 ∧
      alookup (joinGame (joinGame reg gameId playerId name1).2 gameId playerId name2).2
        gameId = some g2 ∧
      g2.players = g1.players ∧
      alookup g1.players playerId = some { id := playerId, name := name1 } ∧
      (g1.players.countP (fun q => q.1 == playerId)) = 1 := by
  cases hg : alookup reg gameId with
  | some game =>
      have hfg := hfresh game hg
      refine ⟨{ game with
                  players := aset game.players playerId { id := playerId, name := name1 },
                  log := game.log ++ [name1 ++ " joined the game."] },
              { game with
                  players := aset game.players playerId { id := playerId, name := name1 },
                  log := (game.log ++ [name1 ++ " joined the game."]) ++
                    [name2 ++ " joined the game."] },
              ?_, ?_, ?_, ?_, ?_⟩
      · simp [joinGame, addPlayer, appendLog, createGame, hg, hfg, alookup_aset]
      · simp [joinGame, addPlayer, appendLog, createGame, hg, hfg, alookup_aset]
      · rfl
      · rw [alookup_aset, if_pos rfl]
      · exact countP_aset_of_alookup_none game.players playerId _ hfg
  | none =>
      refine ⟨{ id := gameId,
                  players := [(playerId, { id := playerId, name := name1 })],
                  log := [name1 ++ " joined the game."] },
              { id := gameId,
                  players := [(playerId, { id := playerId, name := name1 })],
                  log := [name1 ++ " joined the game.", name2 ++ " joined the game."] },
              ?_, ?_, ?_, ?_, ?_⟩
      · simp [joinGame, addPlayer, appendLog, createGame, hg, alookup_aset, alookup, aset]
      · simp [joinGame, addPlayer, appendLog, createGame, hg, alookup_aset, alookup, aset]
      · rfl
      · simp [alookup]
      · simp [List.countP_cons]

/-- Witness for C7 at a concrete input: empty registry, two joins with
different names. -/
theorem join_idempotent_first_write_wins_witness :
    ∃ g1 g2,
      alookup (joinGame [] "g1" "p1" "Rowan").2 "g1" = some g1 ∧
      alookup (joinGame (joinGame [] "g1" "p1" "Rowan").2 "g1" "p1" "Yara").2
        "g1" = some g2 ∧
      g2.players = g1.players ∧
      alookup g1.players "p1" = some { id := "p1", name := "Rowan" } ∧
      (g1.players.countP (fun q => q.1 == "p1")) = 1 :=
  join_idempotent_first_write_wins [] "g1" "p1" "Rowan" "Yara"
    (by decide) (fun g h => by cases h)

theorem spent_self (lo : Int) : spent lo lo = 0 := by
  rw [spent]
  simp

theorem levelLoopP_spec (pname : String) (level exp : Int)
    (hl : 1 ≤ level) (he : 0 ≤ exp) :
    1 ≤ (levelLoopP pname level exp).1 ∧
    level ≤ (levelLoopP pname level exp).1 ∧
    0 ≤ (levelLoopP pname level exp).2.1 ∧
    (levelLoopP pname level exp).2.1 < (levelLoopP pname level exp).1 * 1000 ∧
    exp = (levelLoopP pname level exp).2.1 + spent level (levelLoopP pname level exp).1 ∧
    (levelLoopP pname level exp).2.2.length = ((levelLoopP pname level exp).1 - level).toNat := by
  generalize hn : exp.toNat = n
  induction n using Nat.strong_induction_on generalizing level exp with
  | _ n ih =>
      rw [levelLoopP]
      by_cases hc : exp ≥ level * 1000
      · rw [if_pos hc]
        have hstep : (exp - level * 1000).toNat < n := by omega
        obtain ⟨h1, h2, h3, h4, h5, h6⟩ := ih ((exp - level * 1000).toNat) hstep
          (level + 1) (exp - level * 1000) (by omega) (by omega) rfl
        have hsp : spent level (levelLoopP pname (level + 1) (exp - level * 1000)).1 =
            level * 1000 + spent (level + 1)
              (levelLoopP pname (level + 1) (exp - level * 1000)).1 := by
          rw [spent, if_pos (by omega)]
        simp only []
        refine ⟨by omega, by omega, h3, h4, by rw [hsp]; omega, ?_⟩
        simp only [List.length_cons, h6]
        omega
      · rw [if_neg hc]
        simp only []
        refine ⟨hl, le_refl _, he, by omega, ?_, ?_⟩
        · rw [spent_self]
          omega
        · simp

/-- **C4** — Leveling loop: `addExperience(game, playerId, X)` on a
character at integer level `L ≥ 1` with experience `E ≥ 0` and `X ≥ 0`
yields level `L'` and experience `E'` with `0 ≤ E' < L' * 1000` and
`E + X = E' + Σ k*1000 for k in [L, L')`, appending one level-up log
line per level gained — the threshold crossing is a loop, so one large
reward can raise the level by more than one. -/
theorem addExperience_leveling
    (reg : Registry) (gameId playerId : String) (xp : Int)
    (game : Game) (p : Player) (c : Character) (L E : Int)
    (hg : alookup reg gameId = some game)
    (hp : alookup game.players playerId = some p)
    (hc : p.character = some c)
    (hL : c.level = some L) (hL1 : 1 ≤ L)
    (hE : c.experience = some E) (hE0 : 0 ≤ E) (hX : 0 ≤ xp) :
    ∃ L' E' msgs c' p', levelLoopP p.name L (E + xp) = (L', E', msgs) ∧
      c' = { c with experience := some E', level := some L' } ∧
      p' = { p with character := some c' } ∧
      (addExperience reg gameId playerId xp).1 = some p' ∧
      (∃ game', alookup (addExperience reg gameId playerId xp).2 gameId = some game' ∧
        game'.log = game.log ++ msgs ∧
        alookup game'.players playerId = some p') ∧
      0 ≤ E' ∧ E' < L' * 1000 ∧ L ≤ L' ∧
      E + xp = E' + spent L L' ∧
      msgs.length = (L' - L).toNat := by
  obtain ⟨h1, h2, h3, h4, h5, h6⟩ := levelLoopP_spec p.name L (E + xp) hL1 (by omega)
  refine ⟨(levelLoopP p.name L (E + xp)).1, (levelLoopP p.name L (E + xp)).2.1,
          (levelLoopP p.name L (E + xp)).2.2, _, _, rfl, rfl, rfl, ?_, ?_, h3, h4, h2, h5, h6⟩
  · unfold addExperience
    simp only [hg, hp, hc, hE, hL]
  · unfold addExperience
    simp only [hg, hp, hc, hE, hL]
    have hlook : ∀ G' : Game, alookup (aset reg gameId G') gameId = some G' := by
      intro G'
      rw [alookup_aset, if_pos rfl]
    exact ⟨_, hlook _, rfl, by rw [alookup_aset, if_pos rfl]⟩

/-- Witness for C4: level-1 character with 0 experience gains 2500 xp —
one threshold of 1000 is consumed (level 2, 1500 left, one log line),
matching the spec's worked example. -/
theorem addExperience_leveling_witness :
    ∃ (L' E' : Int) (msgs : List String) (c' : Character) (p' : Player),
      levelLoopP "Rowan" 1 ((0 : Int) + 2500) = (L', E', msgs) ∧
      0 ≤ E' ∧ E' < L' * 1000 ∧ (1 : Int) ≤ L' ∧
      (0 : Int) + 2500 = E' + spent 1 L' ∧ msgs.length = (L' - 1).toNat ∧
      (addExperience
        [("g", { id := "g", players := [("p",
          { id := "p", name := "Rowan", character :=
            some { level := some 1, experience := some 0 } })] })]
        "g" "p" 2500).1 = some p' := by
  obtain ⟨L', E', msgs, c', p', hloop, hc', hp', hres, hgame, hE0, hlt, hLle, hcons, hlen⟩ :=
    addExperience_leveling
      [("g", { id := "g", players := [("p",
        { id := "p", name := "Rowan", character :=
          some { level := some 1, experience := some 0 } })] })]
      "g" "p" 2500
      ({ id := "g", players := [("p",
        { id := "p", name := "Rowan", character :=
          some { level := some 1, experience := some 0 } })] })
      ({ id := "p", name := "Rowan", character :=
          some { level := some 1, experience := some 0 } })
      ({ level := some 1, experience := some 0 })
      1 0
      (by decide) (by decide) (by decide) (by decide) (by decide)
      (by decide) (by decide) (by decide)
  exact ⟨L', E', msgs, c', p', hloop, hE0, hlt, hLle, hcons, hlen, hres⟩

theorem levelLoopFuel_stabilizes (pname : String) :
    ∀ (fuel : Nat) (level exp : Int), 1 ≤ level → 0 ≤ exp → exp.toNat + 1 ≤ fuel →
      levelLoopFuel pname fuel level exp = some (levelLoopP pname level exp) := by
  intro fuel
  induction fuel with
  | zero => intro level exp _ _ hfe; omega
  | succ f ih =>
      intro level exp hl he hfe
      rw [levelLoopFuel, levelLoopP]
      by_cases hc : exp ≥ level * 1000
      · rw [if_pos hc, if_pos hc]
        have hrec := ih (level + 1) (exp - level * 1000) (by omega) (by omega) (by omega)
        rw [hrec]
      · rw [if_neg hc, if_neg hc]

/-- **C10** — Termination of `addExperience`'s leveling loop for integer
level ≥ 1 and finite integer experience: (a) with fuel `exp+1` the
fuel-indexed loop completes and agrees with the total loop — each
iteration strictly increases the level and decreases the experience by
`level*1000 ≥ 1000` (part b); at level 0 the loop guard still fires but
leaves the experience unchanged (part c), so the `level ≥ 1`
precondition is what the decreasing-experience termination argument
rests on; and `setCharacter` only defaults `level` to 1 when the merged
field is absent, preserving a supplied level value including 0
(parts d, e). -/
theorem addExperience_termination (pname : String) :
    (∀ (level exp : Int), 1 ≤ level → 0 ≤ exp →
      ∀ fuel, exp.toNat + 1 ≤ fuel →
        levelLoopFuel pname fuel level exp = some (levelLoopP pname level exp)) ∧
    (∀ (level exp : Int), 1 ≤ level → exp ≥ level * 1000 →
      (levelLoopP pname level exp).1 = (levelLoopP pname (level + 1) (exp - level * 1000)).1 ∧
      (levelLoopP pname level exp).2.1 =
        (levelLoopP pname (level + 1) (exp - level * 1000)).2.1 ∧
      exp - level * 1000 ≤ exp - 1000) ∧
    (∀ exp : Int, 0 ≤ exp →
      (levelLoopP pname 0 exp).1 = (levelLoopP pname 1 exp).1 ∧
      (levelLoopP pname 0 exp).2.1 = (levelLoopP pname 1 exp).2.1 ∧
      exp - 0 * 1000 = exp) ∧
    (∀ (reg : Registry) (gid pid : String) (patch : CharPatch) (l : Int),
      patch.level = some l →
      ∃ ch, (setCharacter reg gid pid patch).1.character = some ch ∧ ch.level = some l) ∧
    (∀ (reg : Registry) (gid pid : String) (patch : CharPatch),
      patch.level = none → charOf reg gid pid = none →
      ∃ ch, (setCharacter reg gid pid patch).1.character = some ch ∧ ch.level = some 1) := by
  refine ⟨fun level exp h1 h2 fuel h3 =>
    levelLoopFuel_stabilizes pname fuel level exp h1 h2 h3, ?_, ?_, ?_, ?_⟩
  · intro level exp hl hc
    rw [levelLoopP]
    rw [if_pos hc]
    refine ⟨rfl, rfl, by omega⟩
  · intro exp he
    have hc : exp ≥ 0 * 1000 := by omega
    rw [levelLoopP, if_pos hc]
    have h0 : exp - 0 * 1000 = exp := by omega
    rw [h0]
    exact ⟨rfl, rfl, by omega⟩
  · intro reg gid pid patch l hl
    unfold setCharacter
    simp only []
    refine ⟨_, rfl, ?_⟩
    simp only [mergeChar, hl]
  · intro reg gid pid patch hl hco
    unfold setCharacter
    simp only []
    refine ⟨_, rfl, ?_⟩
    unfold charOf at hco
    unfold createGame
    cases hg : alookup reg gid with
    | none =>
        simp only [alookup]
        simp only [mergeChar, hl]
    | some game =>
        rw [hg] at hco
        simp only [] at hco
        cases hp : alookup game.players pid with
        | none =>
            simp only [hp]
            simp only [mergeChar, hl]
        | some p =>
            rw [hp] at hco
            simp only [] at hco
            simp only [hp, hco]
            simp only [mergeChar, hl]

/-- Witness for C10 at concrete inputs: fuel 2501 suffices for exp 2500
at level 1; a supplied level 0 survives `setCharacter`; an absent level
defaults to 1. -/
theorem addExperience_termination_witness :
    levelLoopFuel "Rowan" 2501 1 2500 = some (levelLoopP "Rowan" 1 2500) ∧
    (2500 - 1 * 1000 : Int) ≤ 2500 - 1000 ∧
    (∃ ch, (setCharacter [] "g" "p" { level := some 0 }).1.character = some ch ∧
      ch.level = some 0) ∧
    (∃ ch, (setCharacter [] "g" "p" {}).1.character = some ch ∧ ch.level = some 1) := by
  obtain ⟨ha, hb, hc, hd, he⟩ := addExperience_termination "Rowan"
  refine ⟨ha 1 2500 (by decide) (by decide) 2501 (by decide), ?_, ?_, ?_⟩
  · exact (hb 1 2500 (by decide) (by decide)).2.2
  · exact hd [] "g" "p" { level := some 0 } 0 rfl
  · exact he [] "g" "p" {} rfl (by rfl)

/-! ## C5: dice-notation parsing in spells vs items -/

theorem matchDiceAtNB_eq (cs : List Char) :
    matchDiceAtNB cs = (matchDiceAt cs).map (fun m => (m.1, m.2.1)) := by
  unfold matchDiceAtNB matchDiceAt
  by_cases h1 : (cs.span Char.isDigit).1.isEmpty
  · rw [if_pos h1, if_pos h1]
    rfl
  · rw [if_neg h1, if_neg h1]
    split
    · rename_i x r2 heq
      by_cases h3 : (r2.span Char.isDigit).1.isEmpty
      · rw [if_pos h3, if_pos h3]
        rfl
      · rw [if_neg h3, if_neg h3]
        split
        · simp only []
          split
          · rfl
          · rfl
        · rfl
    · rfl

theorem findDiceNB_eq (cs : List Char) :
    findDiceNB cs = (findDice cs).map (fun m => (m.1, m.2.1)) := by
  induction cs with
  | nil => rfl
  | cons c rest ih =>
      unfold findDiceNB findDice
      rw [matchDiceAtNB_eq]
      cases h : matchDiceAt (c :: rest) with
      | some m => simp
      | none => simp [ih]

/-- **C5 (amended)** — Dice-notation parsing in spells vs items: both
parsers find the same leftmost `<count>d<sides>` match and consume the
same die rolls, and both return 0 without raising on a string with no
match; but the item parser's regex has no bonus group, so the values
agree exactly on notations whose match carries no (nonzero) `+bonus` —
in general the spell parser's value exceeds the item parser's value by
the parsed bonus. -/
theorem rollNotation_shared (s : String) (rng : List Nat) :
    (findDice s.toList = none →
      rollFromNotation s rng = (0, rng) ∧ itemHealRoll s rng = (0, rng)) ∧
    (∀ count sides bonus, findDice s.toList = some (count, sides, bonus) →
      (itemHealRoll s rng).2 = (rollFromNotation s rng).2 ∧
      (rollFromNotation s rng).1 =
        (match bonus with | some b => b | none => 0) + (itemHealRoll s rng).1) ∧
    ((∀ count sides bonus, findDice s.toList = some (count, sides, bonus) →
        bonus = none ∨ bonus = some 0) →
      rollFromNotation s rng = itemHealRoll s rng) := by
  refine ⟨?_, ?_, ?_⟩
  · intro h
    have hnb : findDiceNB s.toList = none := by
      rw [findDiceNB_eq, h]
      rfl
    unfold rollFromNotation itemHealRoll
    rw [h, hnb]
    exact ⟨rfl, rfl⟩
  · intro count sides bonus h
    have hnb : findDiceNB s.toList = some (count, sides) := by
      rw [findDiceNB_eq, h]
      rfl
    unfold rollFromNotation itemHealRoll
    rw [h, hnb]
    exact ⟨rfl, rfl⟩
  · intro h
    cases hfd : findDice s.toList with
    | none =>
        have hnb : findDiceNB s.toList = none := by
          rw [findDiceNB_eq, hfd]
          rfl
        unfold rollFromNotation itemHealRoll
        rw [hfd, hnb]
    | some m =>
        obtain ⟨count, sides, bonus⟩ := m
        have hnb : findDiceNB s.toList = some (count, sides) := by
          rw [findDiceNB_eq, hfd]
          rfl
        unfold rollFromNotation itemHealRoll
        rw [hfd, hnb]
        rcases h count sides bonus hfd with hb | hb <;> rw [hb] <;> simp

/-- Counterexample for C5 as stated: on `"1d6+2"` with the same single
die outcome 3, the spell parser honours the `+2` bonus (total 5) while
the item-heal parser ignores it (total 3). -/
theorem rollNotation_shared_cx :
    rollFromNotation "1d6+2" [3] = (5, []) ∧
    itemHealRoll "1d6+2" [3] = (3, []) ∧
    rollFromNotation "1d6+2" [3] ≠ itemHealRoll "1d6+2" [3] := by
  refine ⟨by decide, by decide, by decide⟩

/-- Witness for C5: on the bonus-free notation `"2d4"` with the same two
die outcomes the two parsers agree, and on a malformed string both
return 0. -/
theorem rollNotation_shared_witness :
    rollFromNotation "2d4" [3, 2] = itemHealRoll "2d4" [3, 2] ∧
    rollFromNotation "fireball" [7] = (0, [7]) ∧
    itemHealRoll "fireball" [7] = (0, [7]) := by
  have h1 := rollNotation_shared "2d4" [3, 2]
  have h2 := rollNotation_shared "fireball" [7]
  refine ⟨h1.2.2 ?_, (h2.1 (by decide)).1, (h2.1 (by decide)).2⟩
  intro c k b hb
  have hd : findDice "2d4".toList = some (2, 4, none) := by decide
  rw [hd] at hb
  simp only [Option.some.injEq, Prod.mk.injEq] at hb
  exact Or.inl hb.2.2.symm

theorem applyDamage_hp (c : Option Character) (d : Nat)
    (hnan : ∀ ch, c = some ch → ch.hp ≠ JVal.nan) :
    (applyDamageToCharacter c d).hp = JVal.num (hpCoerced c - d) := by
  unfold applyDamageToCharacter hpCoerced
  cases c with
  | none =>
      simp [JVal.isNum, JVal.sub]
      split <;> rfl
  | some ch =>
      cases hhp : ch.hp with
      | num n =>
          simp [hhp, JVal.isNum, JVal.sub]
          split <;> rfl
      | undef =>
          simp [hhp, JVal.isNum, JVal.sub]
          split <;> rfl
      | jnull =>
          simp [hhp, JVal.isNum, JVal.sub]
          split <;> rfl
      | nan => exact absurd hhp (hnan ch rfl)

theorem applyDamage_status (c : Option Character) (d : Nat) :
    (applyDamageToCharacter c d).status =
      (if (applyDamageToCharacter c d).hp.le0 = true then some "unconscious"
       else (match c with | some ch => ch.status | none => none)) := by
  unfold applyDamageToCharacter
  cases c with
  | none =>
      simp only []
      rw [apply_ite Character.status, apply_ite Character.hp]
      simp
  | some ch =>
      simp only []
      rw [apply_ite Character.status, apply_ite Character.hp]
      simp

/-- **C1 (amended)** — Attack roll-hit law: with attacker and target
present, `attack` draws one d20; it reports hit iff that roll ≥ the
target's EFFECTIVE armour class — the Character's `ac` when present,
numeric and nonzero, and 10 when the target has no Character or its `ac`
is absent, zero or non-numeric (`(character && character.ac) || 10`).
On a hit the damage is one d6 draw (in [1,6] for an in-range die) and,
provided the target's stored hp is not `NaN`, the target's hit points
(coerced to 0 when absent/non-numeric) decrease by exactly that damage;
on a miss the damage is 0 and the registry is unchanged. -/
theorem attack_roll_hit_law
    (reg : Registry) (gameId attackerId targetId : String)
    (game : Game) (att tgt : Player) (d20 d6 : Nat) (rest : List Nat)
    (hg : alookup reg gameId = some game)
    (ha : alookup game.players attackerId = some att)
    (ht : alookup game.players targetId = some tgt)
    (hd20 : 1 ≤ d20 ∧ d20 ≤ 20) (hd6 : 1 ≤ d6 ∧ d6 ≤ 6)
    (hnan : ∀ ch, tgt.character = some ch → ch.hp ≠ JVal.nan) :
    ∃ res, (attack reg gameId attackerId targetId (d20 :: d6 :: rest)).1 = .ok res ∧
      res.roll = d20 ∧
      (res.hit = true ↔ (d20 : Int) ≥ acAttack tgt.character) ∧
      (res.hit = true →
        res.damage = d6 ∧ 1 ≤ res.damage ∧ res.damage ≤ 6 ∧
        res.targetRemainingHp = JVal.num (hpCoerced tgt.character - d6) ∧
        (∃ game' tgt' c',
          alookup (attack reg gameId attackerId targetId (d20 :: d6 :: rest)).2.1 gameId
            = some game' ∧
          alookup game'.players targetId = some tgt' ∧ tgt'.character = some c' ∧
          c'.hp = JVal.num (hpCoerced tgt.character - d6)) ∧
        (attack reg gameId attackerId targetId (d20 :: d6 :: rest)).2.2 = rest) ∧
      (res.hit = false →
        res.damage = 0 ∧
        (attack reg gameId attackerId targetId (d20 :: d6 :: rest)).2.1 = reg ∧
        (attack reg gameId attackerId targetId (d20 :: d6 :: rest)).2.2 = d6 :: rest) := by
  unfold attack
  simp only [hg, ha, ht, rollDie]
  have hlook : ∀ G' : Game, alookup (aset reg gameId G') gameId = some G' := by
    intro G'
    rw [alookup_aset, if_pos rfl]
  by_cases hhit : ((d20 : Int) ≥ acAttack tgt.character)
  · rw [if_pos (decide_eq_true hhit)]
    refine ⟨_, rfl, rfl, by simp [hhit], ?_, by simp⟩
    intro _
    refine ⟨rfl, hd6.1, hd6.2, applyDamage_hp tgt.character d6 hnan, ?_, rfl⟩
    refine ⟨{ game with players := aset game.players targetId ({ tgt with character := some (applyDamageToCharacter tgt.character d6) }) }, { tgt with character := some (applyDamageToCharacter tgt.character d6) }, applyDamageToCharacter tgt.character d6, hlook _, ?_, rfl, applyDamage_hp tgt.character d6 hnan⟩
    rw [alookup_aset, if_pos rfl]
  · rw [if_neg (fun h => hhit (of_decide_eq_true h))]
    refine ⟨_, rfl, rfl, by simp [hhit], by simp, ?_⟩
    intro _
    exact ⟨rfl, rfl, rfl⟩

/-- Counterexample for C1 as stated: a target whose Character has armour
class 0 (an integer) — the claim predicts a hit for any roll ≥ 0, but
the code's `(character && character.ac) || 10` treats the 0 as falsy and
defends with AC 10, so a roll of 5 misses. -/
theorem attack_roll_hit_law_cx :
    ∃ res, (attack regAcZero "g" "a" "t" [5, 3]).1 = .ok res ∧
      res.hit = false ∧ ((5 : Int) ≥ 0) ∧ res.roll = 5 := by
  refine ⟨{ attacker := "A", target := "T", roll := 5, hit := false, damage := 0,
            targetRemainingHp := JVal.num 5 }, rfl, rfl, by decide, rfl⟩

/-- Witness for C1 (amended) at a concrete input: AC 12, roll 15 hits,
d6 = 4, hp 10 → 6. -/
theorem attack_roll_hit_law_witness :
    ∃ res, (attack regAc12 "g" "a" "t" [15, 4]).1 = .ok res ∧
      res.roll = 15 ∧
      (res.hit = true ↔ (15 : Int) ≥ acAttack (some tgtChar12)) ∧
      (res.hit = true →
        res.damage = 4 ∧ 1 ≤ res.damage ∧ res.damage ≤ 6 ∧
        res.targetRemainingHp = JVal.num (hpCoerced (some tgtChar12) - 4) ∧
        (∃ game' tgt' c',
          alookup (attack regAc12 "g" "a" "t" [15, 4]).2.1 "g" = some game' ∧
          alookup game'.players "t" = some tgt' ∧ tgt'.character = some c' ∧
          c'.hp = JVal.num (hpCoerced (some tgtChar12) - 4)) ∧
        (attack regAc12 "g" "a" "t" [15, 4]).2.2 = []) ∧
      (res.hit = false →
        res.damage = 0 ∧
        (attack regAc12 "g" "a" "t" [15, 4]).2.1 = regAc12 ∧
        (attack regAc12 "g" "a" "t" [15, 4]).2.2 = [4]) :=
  attack_roll_hit_law regAc12 "g" "a" "t"
    ({ id := "g", players :=
      [("a", { id := "a", name := "A" }),
       ("t", { id := "t", name := "T", character := some tgtChar12 })] })
    ({ id := "a", name := "A" })
    ({ id := "t", name := "T", character := some tgtChar12 })
    15 4 []
    (by decide) (by decide) (by decide)
    (by decide) (by decide)
    (fun ch h => by
      injection h with h2
      rw [← h2]
      decide)

theorem applyDamage_hp_ne_jnull (c : Option Character) (d : Nat) :
    (applyDamageToCharacter c d).hp ≠ JVal.jnull := by
  have hsub : ∀ (v : JVal) (k : Int), v.sub k ≠ JVal.jnull := by
    intro v k
    cases v <;> simp [JVal.sub]
  unfold applyDamageToCharacter
  cases c <;>
    · simp only []
      rw [apply_ite Character.hp]
      simp only []
      rw [ite_self]
      exact hsub _ _

/-- **C9** — When `attack` hits a target player who has no Character,
the engine materialises `{hp: 0}` before applying damage: afterwards the
target has a Character with hit points `-damage` and status
"unconscious", and the reported remaining hit points equal `-damage`.
A null remaining-hit-points report occurs only when the attack misses a
Character-less target (given that no stored hp is the JS `null`, which
the engine never writes). -/
theorem attack_no_character_materialization
    (reg : Registry) (gameId attackerId targetId : String)
    (game : Game) (att tgt : Player) (d20 d6 : Nat) (rest : List Nat)
    (hg : alookup reg gameId = some game)
    (ha : alookup game.players attackerId = some att)
    (ht : alookup game.players targetId = some tgt) :
    (tgt.character = none →
      (((d20 : Int) ≥ 10 →
        ∃ res game' tgt' c',
          (attack reg gameId attackerId targetId (d20 :: d6 :: rest)).1 = .ok res ∧
          res.hit = true ∧ res.damage = d6 ∧
          res.targetRemainingHp = JVal.num (0 - (d6 : Int)) ∧
          alookup (attack reg gameId attackerId targetId (d20 :: d6 :: rest)).2.1 gameId
            = some game' ∧
          alookup game'.players targetId = some tgt' ∧ tgt'.character = some c' ∧
          c'.hp = JVal.num (0 - (d6 : Int)) ∧ c'.status = some "unconscious") ∧
       ((d20 : Int) < 10 →
        ∃ res,
          (attack reg gameId attackerId targetId (d20 :: d6 :: rest)).1 = .ok res ∧
          res.hit = false ∧ res.targetRemainingHp = JVal.jnull ∧
          (attack reg gameId attackerId targetId (d20 :: d6 :: rest)).2.1 = reg))) ∧
    ((∀ ch, tgt.character = some ch → ch.hp ≠ JVal.jnull) →
      ∀ res, (attack reg gameId attackerId targetId (d20 :: d6 :: rest)).1 = .ok res →
        res.targetRemainingHp = JVal.jnull → res.hit = false ∧ tgt.character = none) := by
  have hlook : ∀ G' : Game, alookup (aset reg gameId G') gameId = some G' := by
    intro G'
    rw [alookup_aset, if_pos rfl]
  constructor
  · intro hnone
    constructor
    · intro hge
      have hac : acAttack tgt.character = 10 := by rw [hnone]; rfl
      unfold attack
      simp only [hg, ha, ht, rollDie]
      rw [if_pos (decide_eq_true (by rw [hac]; exact hge))]
      have hhp2 : (applyDamageToCharacter none d6).hp = JVal.num (0 - (d6 : Int)) := by
        rw [applyDamage_hp none d6 (fun ch h => by cases h)]
        rfl
      have hst2 : (applyDamageToCharacter none d6).status = some "unconscious" := by
        rw [applyDamage_status none d6, hhp2]
        rw [if_pos]
        simp only [JVal.le0]
        exact decide_eq_true (by omega)
      refine ⟨_, { game with players := aset game.players targetId ({ tgt with character := some (applyDamageToCharacter tgt.character d6) }) }, { tgt with character := some (applyDamageToCharacter tgt.character d6) }, applyDamageToCharacter tgt.character d6, rfl, rfl, rfl, ?_, hlook _, by rw [alookup_aset, if_pos rfl], rfl, ?_, ?_⟩
      · rw [hnone]
        exact hhp2
      · rw [hnone]
        exact hhp2
      · rw [hnone]
        exact hst2
    · intro hlt
      unfold attack
      simp only [hg, ha, ht, rollDie]
      rw [if_neg (fun h => absurd (of_decide_eq_true h) (by rw [hnone]; simp [acAttack]; omega))]
      refine ⟨_, rfl, rfl, ?_, rfl⟩
      rw [hnone]
  · intro hnn res hres hnull
    unfold attack at hres
    simp only [hg, ha, ht, rollDie] at hres
    by_cases hhit : ((d20 : Int) ≥ acAttack tgt.character)
    · rw [if_pos (decide_eq_true hhit)] at hres
      simp only [Except.ok.injEq] at hres
      exfalso
      apply applyDamage_hp_ne_jnull tgt.character d6
      rw [← hres] at hnull
      exact hnull
    · rw [if_neg (fun h => hhit (of_decide_eq_true h))] at hres
      simp only [Except.ok.injEq] at hres
      rw [← hres] at hnull
      simp only [] at hnull
      cases htc : tgt.character with
      | none =>
          rw [← hres]
          exact ⟨rfl, rfl⟩
      | some ch =>
          rw [htc] at hnull
          exact absurd hnull (hnn ch htc)

/-- Witness for C9: hit (roll 12 ≥ 10) on a Character-less target with
damage 3 materialises a Character at -3 hp, unconscious. -/
theorem attack_no_character_materialization_witness :
    ∃ res game' tgt' c',
      (attack regNoChar "g" "a" "t" [12, 3]).1 = .ok res ∧
      res.hit = true ∧ res.damage = 3 ∧
      res.targetRemainingHp = JVal.num (0 - (3 : Int)) ∧
      alookup (attack regNoChar "g" "a" "t" [12, 3]).2.1 "g" = some game' ∧
      alookup game'.players "t" = some tgt' ∧ tgt'.character = some c' ∧
      c'.hp = JVal.num (0 - (3 : Int)) ∧ c'.status = some "unconscious" :=
  ((attack_no_character_materialization regNoChar "g" "a" "t" gameNoChar
      { id := "a", name := "A" } { id := "t", name := "T" } 12 3 []
      (by decide) (by decide) (by decide)).1 rfl).1 (by decide)

theorem nlookup_nset {α : Type} (l : List (Nat × α)) (k key : Nat) (v : α) :
    nlookup (nset l key v) k = if k = key then some v else nlookup l k := by
  induction l with
  | nil => simp only [nset, nlookup]
  | cons hd tl ih =>
      obtain ⟨k', w⟩ := hd
      simp only [nset]
      by_cases h1 : key = k'
      · rw [if_pos h1]
        subst h1
        simp only [nlookup]
        by_cases h2 : k = key
        · rw [if_pos h2, if_pos h2]
        · rw [if_neg h2, if_neg h2, if_neg h2]
      · rw [if_neg h1]
        simp only [nlookup, ih]
        by_cases h2 : k = k'
        · have h3 : ¬ k = key := fun h => h1 (h.symm.trans h2)
          rw [if_pos h2, if_neg h3, if_pos h2]
        · rw [if_neg h2]
          by_cases h3 : k = key
          · rw [if_pos h3, if_pos h3]
          · rw [if_neg h3, if_neg h3, if_neg h2]

theorem nlookup_le_maxKey {α : Type} (l : List (Nat × α)) (r : Nat) (v : α)
    (h : nlookup l r = some v) : r ≤ maxKey l := by
  induction l with
  | nil => cases h
  | cons hd tl ih =>
      obtain ⟨k, w⟩ := hd
      simp only [nlookup] at h
      simp only [maxKey, List.foldr_cons]
      by_cases h2 : r = k
      · omega
      · rw [if_neg h2] at h
        have := ih h
        simp only [maxKey] at this
        omega

theorem nlookup_freshRef {α : Type} (l : List (Nat × α)) :
    nlookup l (freshRef l) = none := by
  cases h : nlookup l (freshRef l) with
  | none => rfl
  | some v =>
      have := nlookup_le_maxKey l (freshRef l) v h
      unfold freshRef at this
      omega

theorem nlookup_append_some {α : Type} (l l2 : List (Nat × α)) (r : Nat) (v : α)
    (h : nlookup l r = some v) : nlookup (l ++ l2) r = some v := by
  induction l with
  | nil => cases h
  | cons hd tl ih =>
      obtain ⟨k, w⟩ := hd
      simp only [nlookup] at h
      simp only [List.cons_append, nlookup]
      by_cases h2 : r = k
      · rw [if_pos h2]
        rw [if_pos h2] at h
        exact h
      · rw [if_neg h2]
        rw [if_neg h2] at h
        exact ih h

theorem nlookup_append_fresh {α : Type} (l : List (Nat × α)) (k : Nat) (x : α)
    (h : nlookup l k = none) : nlookup (l ++ [(k, x)]) k = some x := by
  induction l with
  | nil => simp [nlookup]
  | cons hd tl ih =>
      obtain ⟨k2, w⟩ := hd
      simp only [nlookup] at h
      by_cases h2 : k = k2
      · rw [if_pos h2] at h
        cases h
      · rw [if_neg h2] at h
        simp only [List.cons_append, nlookup, if_neg h2]
        exact ih h

/-- **C8 (amended)** — Export isolation: `exportCharacter` returns null
exactly when the game, player or character is absent; otherwise it
returns the JSON round trip of the stored Character — structurally equal
to it whenever no numeric field holds `NaN` (a `NaN` exports as `null`)
— and the copy is fully detached: at heap level both the exported
character cell and its nested inventory array cell (when the inventory
reference is live) are fresh references, so mutating any part of the
returned object leaves the live Character state unchanged. -/
theorem exportCharacter_isolation :
    (∀ (reg : Registry) (gid pid : String),
      (exportCharacter reg gid pid = none ↔ charOf reg gid pid = none)) ∧
    (∀ (reg : Registry) (gid pid : String) (c : Character),
      charOf reg gid pid = some c →
        exportCharacter reg gid pid = some (jsonRoundTripChar c) ∧
        (c.hp ≠ JVal.nan ∧ c.ac ≠ JVal.nan → jsonRoundTripChar c = c)) ∧
    (∀ (h : JHeap) (r : Nat) (c : HChar), nlookup h.chars r = some c →
      ∃ r' h', exportCharacterHeap h r = some (r', h') ∧
        r' ≠ r ∧
        nlookup h'.chars r = some c ∧
        (∀ v, nlookup (writeChar h' r' v).chars r = some c) ∧
        (∀ ar, c.inv = some ar → (∃ xs0, nlookup h.arrs ar = some xs0) →
          ∃ ar' hc', nlookup h'.chars r' = some hc' ∧ hc'.inv = some ar' ∧
            ar' ≠ ar ∧
            ∀ xs, nlookup (writeArr h' ar' xs).arrs ar = nlookup h.arrs ar)) := by
  refine ⟨?_, ?_, ?_⟩
  · intro reg gid pid
    unfold exportCharacter charOf
    cases hg : alookup reg gid with
    | none => simp
    | some g =>
        simp only []
        cases hp : alookup g.players pid with
        | none => simp [hp]
        | some p =>
            simp only [hp]
            cases hc : p.character with
            | none => simp [hc]
            | some c => simp [hc]
  · intro reg gid pid c hc
    unfold exportCharacter
    unfold charOf at hc
    constructor
    · cases hg : alookup reg gid with
      | none => rw [hg] at hc; cases hc
      | some g =>
          rw [hg] at hc
          simp only [] at hc
          cases hp : alookup g.players pid with
          | none => rw [hp] at hc; cases hc
          | some p =>
              rw [hp] at hc
              simp only [] at hc
              simp only [hg, hp, hc]
    · intro hne
      unfold jsonRoundTripChar
      cases c with
      | mk nm rc cl hp ac ab sv ex lv inv st =>
          simp only []
          cases hp <;> cases ac <;> simp_all [jsonJVal]
  · intro h r c hc
    have hner : freshRef h.chars ≠ r := by
      intro he
      rw [← he, nlookup_freshRef] at hc
      cases hc
    have hcfresh : nlookup h.chars (freshRef h.chars) = none := nlookup_freshRef h.chars
    cases hinv : c.inv with
    | none =>
        refine ⟨freshRef h.chars,
          { chars := h.chars ++ [(freshRef h.chars, { hp := jsonJVal c.hp, ac := jsonJVal c.ac, status := c.status, inv := none })], arrs := h.arrs },
          ?_, hner, ?_, ?_, ?_⟩
        · unfold exportCharacterHeap
          rw [hc]
          simp only [hinv]
        · exact nlookup_append_some h.chars _ r c hc
        · intro v
          unfold writeChar
          simp only []
          rw [nlookup_nset, if_neg (fun he => hner he.symm)]
          exact nlookup_append_some h.chars _ r c hc
        · intro ar har
          exact Option.noConfusion har
    | some ar0 =>
        refine ⟨freshRef h.chars,
          { chars := h.chars ++ [(freshRef h.chars, { hp := jsonJVal c.hp, ac := jsonJVal c.ac, status := c.status, inv := some (freshRef h.arrs) })], arrs := h.arrs ++ [(freshRef h.arrs, (nlookup h.arrs ar0).getD [])] },
          ?_, hner, ?_, ?_, ?_⟩
        · unfold exportCharacterHeap
          rw [hc]
          simp only [hinv]
        · exact nlookup_append_some h.chars _ r c hc
        · intro v
          unfold writeChar
          simp only []
          rw [nlookup_nset, if_neg (fun he => hner he.symm)]
          exact nlookup_append_some h.chars _ r c hc
        · intro ar har hlive
          obtain ⟨xs0, hxs0⟩ := hlive
          injection har with he
          subst he
          have hnear : freshRef h.arrs ≠ ar0 := by
            intro he2
            rw [← he2, nlookup_freshRef] at hxs0
            cases hxs0
          refine ⟨freshRef h.arrs,
            { hp := jsonJVal c.hp, ac := jsonJVal c.ac, status := c.status, inv := some (freshRef h.arrs) },
            ?_, rfl, hnear, ?_⟩
          · simp only []
            exact nlookup_append_fresh h.chars (freshRef h.chars) _ hcfresh
          · intro xs
            unfold writeArr
            simp only []
            rw [nlookup_nset, if_neg (fun he2 => hnear he2.symm)]
            rw [nlookup_append_some h.arrs _ ar0 xs0 hxs0, hxs0]

/-- Counterexample for C8 as stated: exporting a character whose hp is
`NaN` yields a structurally different object — `JSON.stringify` writes
`NaN` as `null`. -/
theorem exportCharacter_isolation_cx :
    charOf regNanHp "g" "p" = some { hp := JVal.nan } ∧
    exportCharacter regNanHp "g" "p" = some { hp := JVal.jnull } ∧
    ({ hp := JVal.jnull } : Character) ≠ ({ hp := JVal.nan } : Character) :=
  ⟨rfl, rfl, by decide⟩

/-- Witness for C8 (amended): the export of a NaN-free character equals
the stored one, and at heap level the exported cells are fresh. -/
theorem exportCharacter_isolation_witness :
    (exportCharacter regPlain "g" "p" =
      some (jsonRoundTripChar { hp := JVal.num 7, ac := JVal.num 12,
                                inventory := some ["sword"] }) ∧
     jsonRoundTripChar ({ hp := JVal.num 7, ac := JVal.num 12,
                          inventory := some ["sword"] } : Character) =
       { hp := JVal.num 7, ac := JVal.num 12, inventory := some ["sword"] }) ∧
    (∃ r' h', exportCharacterHeap heapPlain 1 = some (r', h') ∧
      r' ≠ 1 ∧
      nlookup h'.chars 1 = some { hp := JVal.num 7, inv := some 5 } ∧
      (∀ v, nlookup (writeChar h' r' v).chars 1 =
        some { hp := JVal.num 7, inv := some 5 }) ∧
      (∀ ar, ({ hp := JVal.num 7, inv := some 5 } : HChar).inv = some ar →
        (∃ xs0, nlookup heapPlain.arrs ar = some xs0) →
        ∃ ar' hc', nlookup h'.chars r' = some hc' ∧ hc'.inv = some ar' ∧
          ar' ≠ ar ∧
          ∀ xs, nlookup (writeArr h' ar' xs).arrs ar = nlookup heapPlain.arrs ar)) := by
  obtain ⟨h1, h2, h3⟩ := exportCharacter_isolation
  constructor
  · constructor
    · exact (h2 regPlain "g" "p" _ (by decide)).1
    · exact (h2 regPlain "g" "p" _ (by decide)).2 (by decide)
  · exact h3 heapPlain 1 _ (by decide)

/-- C6 failing input evaluated: `giveItem` on an empty registry with a
known item id and an unknown game/player fails, yet afterwards the
registry contains a freshly created empty game — state mutated by a
failing call, contradicting the validate-before-mutate policy. -/
theorem giveItem_mutates_before_failing :
    (giveItem envPotion [] "g1" "p1" "potion").1 =
      .error "TypeError: Cannot read properties of null (reading name)" ∧
    (giveItem envPotion [] "g1" "p1" "potion").2 ≠ [] ∧
    alookup (giveItem envPotion [] "g1" "p1" "potion").2 "g1" = some { id := "g1" } := by
  refine ⟨rfl, ?_, rfl⟩
  intro h
  have h2 : alookup (giveItem envPotion [] "g1" "p1" "potion").2 "g1" =
      some { id := "g1" } := rfl
  rw [h] at h2
  cases h2

theorem statusOf_eq_of_charOf_eq {reg reg' : Registry} {gid pid : String}
    (h : charOf reg' gid pid = charOf reg gid pid) :
    statusOf reg' gid pid = statusOf reg gid pid := by
  unfold statusOf
  rw [h]

theorem charOf_addPlayer (reg : Registry) (g p n : String) (gid' pid' : String) :
    charOf (addPlayer reg g p n).2 gid' pid' = charOf reg gid' pid' := by
  unfold addPlayer createGame
  cases hg : alookup reg g with
  | some game =>
      simp only []
      cases hp : alookup game.players p with
      | some pl => rfl
      | none =>
          simp only []
          rw [charOf_aset_game]
          by_cases h : gid' = g
          · rw [if_pos h]
            subst h
            unfold charOf
            rw [hg]
            simp only [alookup_aset]
            by_cases h2 : pid' = p
            · rw [if_pos h2]
              subst h2
              rw [hp]
            · rw [if_neg h2]
          · rw [if_neg h]
  | none =>
      simp only [alookup]
      rw [charOf_aset_game]
      by_cases h : gid' = g
      · rw [if_pos h]
        subst h
        unfold charOf
        rw [hg]
        simp only [alookup_aset, alookup]
        by_cases h2 : pid' = p
        · rw [if_pos h2]
        · rw [if_neg h2]
      · rw [if_neg h]
        unfold charOf
        rw [alookup_aset, if_neg h]

theorem createGame_lookup (reg : Registry) (g : String) :
    alookup (createGame reg g).2 g = some (createGame reg g).1 := by
  unfold createGame
  cases h : alookup reg g with
  | some game => exact h
  | none =>
      simp only []
      rw [alookup_aset, if_pos rfl]

theorem charOf_aset_preserving (reg : Registry) (g : String) (game g' : Game)
    (hg : alookup reg g = some game) (hpl : g'.players = game.players)
    (gid' pid' : String) :
    charOf (aset reg g g') gid' pid' = charOf reg gid' pid' := by
  rw [charOf_aset_game]
  by_cases h : gid' = g
  · rw [if_pos h]
    subst h
    unfold charOf
    rw [hg, hpl]
  · rw [if_neg h]

theorem statusEvolution_join (env : Env) (reg : Registry) (g p n : String) :
    StatusEvolution env (.join g p n) reg := by
  intro gid pid
  left
  apply statusOf_eq_of_charOf_eq
  unfold applyOp joinGame
  simp only []
  rw [charOf_appendLog, charOf_addPlayer]

theorem statusEvolution_selectCamp (env : Env) (reg : Registry) (g cid : String) :
    StatusEvolution env (.selectCamp g cid) reg := by
  intro gid pid
  left
  apply statusOf_eq_of_charOf_eq
  unfold applyOp selectCampaign
  simp only []
  cases hc : getCampaign env cid with
  | none => simp only [hc]
  | some campaign =>
      simp only [hc]
      rw [charOf_appendLog]
      exact (charOf_aset_preserving (createGame reg g).2 g (createGame reg g).1 _
        (createGame_lookup reg g) (by rfl) gid pid).trans (charOf_createGame reg g gid pid)

theorem statusEvolution_spawn (env : Env) (reg : Registry) (g mt iid : String) :
    StatusEvolution env (.spawn g mt iid) reg := by
  intro gid pid
  left
  apply statusOf_eq_of_charOf_eq
  unfold applyOp spawnMonsterC
  simp only []
  cases hr : alookup env.monsters mt with
  | none => simp only [hr]
  | some rules =>
      simp only [hr]
      rw [charOf_appendLog]
      unfold spawnMonsterM
      simp only []
      exact (charOf_aset_preserving (createGame reg g).2 g (createGame reg g).1 _
        (createGame_lookup reg g) (by rfl) gid pid).trans (charOf_createGame reg g gid pid)

theorem statusEvolution_startDlg (env : Env) (reg : Registry) (g p d c : String) :
    StatusEvolution env (.startDlg g p d c) reg := by
  intro gid pid
  left
  rfl

theorem statusEvolution_atkMonster (env : Env) (reg : Registry)
    (g aid mid : String) (rng : List Nat) :
    StatusEvolution env (.atkMonster g aid mid rng) reg := by
  intro gid pid
  left
  apply statusOf_eq_of_charOf_eq
  unfold applyOp attackMonster
  simp only []
  cases hg : alookup reg g with
  | none => simp only [hg]
  | some game =>
      simp only [hg]
      cases ha : alookup game.players aid with
      | none => simp only [ha]
      | some att =>
          simp only [ha]
          cases hm : alookup game.monsters mid with
          | none => simp only [hm]
          | some monster =>
              simp only [hm]
              by_cases hhit : (((rollDie rng).1 : Int) ≥ (if monster.ac = 0 then 10 else monster.ac))
              · rw [if_pos (decide_eq_true hhit)]
                by_cases hdead : monster.hp - ((rollDie (rollDie rng).2).1 : Int) ≤ 0
                · rw [if_pos hdead]
                  exact charOf_aset_preserving reg g game _ hg (by rfl) gid pid
                · rw [if_neg hdead]
                  exact charOf_aset_preserving reg g game _ hg (by rfl) gid pid
              · rw [if_neg (fun h => hhit (of_decide_eq_true h))]

theorem statusOf_aset_players_samestatus
    (reg : Registry) (g : String) (game : Game) (p : String) (p' : Player) (g' : Game)
    (hg : alookup reg g = some game)
    (hgp : g'.players = aset game.players p p')
    (hst : (p'.character.bind Character.status) = statusOf reg g p) :
    ∀ gid' pid', statusOf (aset reg g g') gid' pid' = statusOf reg gid' pid' := by
  intro gid' pid'
  unfold statusOf
  rw [charOf_aset_game]
  by_cases h : gid' = g
  · rw [if_pos h]
    subst h
    rw [hgp, alookup_aset]
    by_cases h2 : pid' = p
    · rw [if_pos h2]
      subst h2
      unfold statusOf at hst
      exact hst
    · rw [if_neg h2]
      unfold charOf
      rw [hg]
  · rw [if_neg h]

theorem statusOf_appendLog (reg : Registry) (g m : String) (gid' pid' : String) :
    statusOf (appendLog reg g m) gid' pid' = statusOf reg gid' pid' :=
  statusOf_eq_of_charOf_eq (charOf_appendLog reg g m gid' pid')

theorem statusOf_setCharacter (reg : Registry) (g p : String) (patch : CharPatch)
    (gid' pid' : String) :
    statusOf (setCharacter reg g p patch).2 gid' pid' = statusOf reg gid' pid' := by
  unfold setCharacter
  cases hg : alookup reg g with
  | some game =>
      simp only [createGame, hg]
      apply statusOf_aset_players_samestatus reg g game p _ _ hg (by rfl)
      cases hp : alookup game.players p with
      | some pl =>
          simp only [hp]
          cases hc : pl.character with
          | some c =>
              simp only [hc, mergeChar]
              simp only [statusOf, charOf, hg, hp, hc]
              rfl
          | none =>
              simp only [hc, mergeChar]
              simp only [statusOf, charOf, hg, hp, hc]
              rfl
      | none =>
          simp only [hp, mergeChar]
          simp only [statusOf, charOf, hg, hp]
          rfl
  | none =>
      simp only [createGame, hg]
      simp only [alookup]
      have hg0 : alookup (aset reg g ({ id := g } : Game)) g = some { id := g } := by
        rw [alookup_aset, if_pos rfl]
      refine Eq.trans
        (statusOf_aset_players_samestatus (aset reg g { id := g }) g { id := g } p
          _ _ hg0 (by rfl) ?_ gid' pid') ?_
      · simp only [statusOf, charOf, hg0, alookup, mergeChar]
        rfl
      · unfold statusOf
        rw [charOf_aset_game]
        by_cases h : gid' = g
        · rw [if_pos h]
          subst h
          unfold charOf
          rw [hg]
          simp [alookup]
        · rw [if_neg h]

theorem statusOf_addItemToPlayer (reg : Registry) (g p it : String) (gid' pid' : String) :
    statusOf (addItemToPlayer reg g p it).2 gid' pid' = statusOf reg gid' pid' := by
  unfold addItemToPlayer
  cases hg : alookup reg g with
  | some game =>
      simp only [createGame, hg]
      cases hp : alookup game.players p with
      | none => simp only [hp]
      | some pl =>
          simp only [hp]
          apply statusOf_aset_players_samestatus reg g game p _ _ hg (by rfl)
          cases hc : pl.character with
          | some c =>
              simp only [hc]
              simp only [statusOf, charOf, hg, hp, hc]
              rfl
          | none =>
              simp only [hc]
              simp only [statusOf, charOf, hg, hp, hc]
              rfl
  | none =>
      simp only [createGame, hg]
      simp only [alookup]
      unfold statusOf
      rw [charOf_aset_game]
      by_cases h : gid' = g
      · rw [if_pos h]
        subst h
        unfold charOf
        rw [hg]
        simp [alookup]
      · rw [if_neg h]

theorem statusOf_removeItemFromPlayer (reg : Registry) (g p it : String)
    (gid' pid' : String) :
    statusOf (removeItemFromPlayer reg g p it).2 gid' pid' = statusOf reg gid' pid' := by
  unfold removeItemFromPlayer
  cases hg : alookup reg g with
  | none => simp only [hg]
  | some game =>
      simp only [hg]
      cases hp : alookup game.players p with
      | none => simp only [hp]
      | some pl =>
          simp only [hp]
          cases hc : pl.character with
          | none => simp only [hc]
          | some c =>
              simp only [hc]
              cases hi : c.inventory with
              | none => simp only [hi]
              | some inv =>
                  simp only [hi]
                  by_cases hin : it ∈ inv
                  · rw [if_pos hin]
                    apply statusOf_aset_players_samestatus reg g game p _ _ hg (by rfl)
                    simp only [statusOf, charOf, hg, hp, hc]
                    rfl
                  · rw [if_neg hin]

theorem statusOf_addExperience (reg : Registry) (g p : String) (xp : Int)
    (gid' pid' : String) :
    statusOf (addExperience reg g p xp).2 gid' pid' = statusOf reg gid' pid' := by
  unfold addExperience
  cases hg : alookup reg g with
  | none => simp only [hg]
  | some game =>
      simp only [hg]
      cases hp : alookup game.players p with
      | none => simp only [hp]
      | some pl =>
          simp only [hp]
          cases hc : pl.character with
          | none => simp only [hc]
          | some c =>
              simp only [hc]
              cases hl : c.level with
              | none =>
                  simp only [hl]
                  apply statusOf_aset_players_samestatus reg g game p _ _ hg (by rfl)
                  simp only [statusOf, charOf, hg, hp, hc]
                  rfl
              | some lv =>
                  simp only [hl]
                  apply statusOf_aset_players_samestatus reg g game p _ _ hg (by rfl)
                  simp only [statusOf, charOf, hg, hp, hc]
                  rfl

theorem getPlayer_eq (reg : Registry) (g p : String) (player : Player)
    (h : getPlayer reg g p = some player) :
    ∃ game, alookup reg g = some game ∧ alookup game.players p = some player := by
  unfold getPlayer at h
  cases hg : alookup reg g with
  | none => rw [hg] at h; cases h
  | some game =>
      rw [hg] at h
      simp only [] at h
      cases hp : alookup game.players p with
      | none => rw [hp] at h; cases h
      | some pl =>
          rw [hp] at h
          simp only [] at h
          exact ⟨game, rfl, by rw [hp, h]⟩

theorem statusEvolution_createChar (env : Env) (reg : Registry) (g p : String)
    (patch : CharPatch) (rng : List Nat) :
    StatusEvolution env (.createChar g p patch rng) reg := by
  intro gid pid
  left
  unfold applyOp createCharacter
  simp only []
  rw [statusOf_appendLog, statusOf_setCharacter]

theorem statusEvolution_give (env : Env) (reg : Registry) (g p it : String) :
    StatusEvolution env (.give g p it) reg := by
  intro gid pid
  left
  unfold applyOp giveItem
  simp only []
  cases hi : alookup env.items it with
  | none => simp only [hi]
  | some item =>
      simp only [hi]
      cases hr : (addItemToPlayer reg g p it).1 with
      | none =>
          simp only [hr]
          exact statusOf_addItemToPlayer reg g p it gid pid
      | some player =>
          simp only [hr]
          rw [statusOf_appendLog]
          exact statusOf_addItemToPlayer reg g p it gid pid

theorem statusEvolution_use (env : Env) (reg : Registry) (g p it : String)
    (rng : List Nat) :
    StatusEvolution env (.use g p it rng) reg := by
  intro gid pid
  left
  unfold applyOp useItem
  simp only []
  cases hi : alookup env.items it with
  | none => simp only [hi]
  | some item =>
      simp only [hi]
      have hrm : ∀ gid' pid',
          statusOf (removeItemFromPlayer reg g p it).2 gid' pid' = statusOf reg gid' pid' :=
        statusOf_removeItemFromPlayer reg g p it
      cases hr : (removeItemFromPlayer reg g p it).1 with
      | none =>
          simp only [hr]
          rw [if_neg (by simp)]
          exact hrm gid pid
      | some s =>
          simp only [hr]
          by_cases hs : s = ""
          · rw [if_neg (by simp [hs])]
            exact hrm gid pid
          · rw [if_pos (by simp [hs])]
            cases hgp : getPlayer (removeItemFromPlayer reg g p it).2 g p with
            | none =>
                simp only [hgp]
                exact hrm gid pid
            | some player =>
                simp only [hgp]
                cases hc : player.character with
                | none =>
                    simp only [hc]
                    exact hrm gid pid
                | some c =>
                    simp only [hc]
                    obtain ⟨gg, hgg, hplr⟩ := getPlayer_eq _ g p player hgp
                    have hstat : statusOf (removeItemFromPlayer reg g p it).2 g p =
                        c.status := by
                      simp only [statusOf, charOf, hgg, hplr, hc]
                      rfl
                    cases hhe : truthyStr (match item.effect with
                      | some e => e.heal
                      | none => none) with
                    | some healStr =>
                        simp only [hhe]
                        rw [statusOf_appendLog]
                        rw [hgg]
                        simp only []
                        rw [statusOf_aset_players_samestatus
                          (removeItemFromPlayer reg g p it).2 g gg p _ _ hgg (by rfl)
                          (by rw [hstat]; rfl) gid pid]
                        exact hrm gid pid
                    | none =>
                        simp only [hhe]
                        cases hab : (match item.effect with
                          | some e => e.acBonus
                          | none => none) with
                        | some b =>
                            simp only [hab]
                            by_cases hb0 : b ≠ 0
                            · rw [if_pos hb0]
                              rw [statusOf_appendLog]
                              rw [hgg]
                              simp only []
                              rw [statusOf_aset_players_samestatus
                                (removeItemFromPlayer reg g p it).2 g gg p _ _ hgg (by rfl)
                                (by rw [hstat]; rfl) gid pid]
                              exact hrm gid pid
                            · rw [if_neg hb0]
                              rw [statusOf_appendLog]
                              exact hrm gid pid
                        | none =>
                            simp only [hab]
                            rw [statusOf_appendLog]
                            exact hrm gid pid

theorem statusOf_rewardItems (g p : String) :
    ∀ (items : List String) (reg reg' : Registry),
      rewardItems reg g p items = .ok reg' →
      ∀ gid' pid', statusOf reg' gid' pid' = statusOf reg gid' pid' := by
  intro items
  induction items with
  | nil =>
      intro reg reg' h gid' pid'
      unfold rewardItems at h
      cases h
      rfl
  | cons it rest ih =>
      intro reg reg' h gid' pid'
      unfold rewardItems at h
      simp only [] at h
      cases hgp : getPlayer (addItemToPlayer reg g p it).2 g p with
      | none => rw [hgp] at h; cases h
      | some pl =>
          rw [hgp] at h
          simp only [] at h
          rw [ih _ _ h gid' pid', statusOf_appendLog]
          exact statusOf_addItemToPlayer reg g p it gid' pid'

theorem statusEvolution_choose (env : Env) (reg : Registry)
    (g p d cv nd : String) (idx : Nat) :
    StatusEvolution env (.choose g p d cv nd idx) reg := by
  intro gid pid
  left
  unfold applyOp chooseDialogueOption
  simp only []
  cases hd : getDialogue env d with
  | none => simp only [hd]
  | some file =>
      simp only [hd]
      cases hcv : (match file.dialogues with
        | some l => l
        | none => ([] : List Conversation)).find? (fun dd : Conversation => dd.id == cv) with
      | none => simp only [hcv]
      | some conv =>
          simp only [hcv]
          cases hnd : alookup conv.nodes nd with
          | none => simp only [hnd]
          | some node =>
              simp only [hnd]
              cases hop : (match node.options with
                | some l => l
                | none => ([] : List DialogueOption)).get? idx with
              | none => simp only [hop]
              | some opt =>
                  simp only [hop]
                  cases hrw : opt.reward with
                  | none =>
                      simp only [hrw]
                      split <;> try split
                      all_goals try split
                      all_goals rfl
                  | some rw =>
                      simp only [hrw]
                      cases hxp : rw.xp with
                      | none =>
                          simp only [hxp]
                          cases hit : rw.items with
                          | none =>
                              simp only [hit]
                              split <;> try split
                              all_goals try split
                              all_goals rfl
                          | some items =>
                              simp only [hit]
                              cases hri : rewardItems reg g p items with
                              | error e =>
                                  simp only [hri]
                                  exact statusOf_addItemToPlayer reg g p _ gid pid
                              | ok reg2 =>
                                  simp only [hri]
                                  have h2 := statusOf_rewardItems g p items reg reg2 hri gid pid
                                  split <;> try split
                                  all_goals try split
                                  all_goals exact h2
                      | some x =>
                          simp only [hxp]
                          by_cases hx0 : x ≠ 0
                          · rw [if_pos hx0]
                            cases hgp2 : getPlayer (addExperience reg g p x).2 g p with
                            | none =>
                                simp only [hgp2]
                                exact statusOf_addExperience reg g p x gid pid
                            | some pl =>
                                simp only [hgp2]
                                have h1 : ∀ gid' pid',
                                    statusOf (appendLog (addExperience reg g p x).2 g
                                      (pl.name ++ " gained " ++ toString x ++ " XP.")) gid' pid' =
                                    statusOf reg gid' pid' := by
                                  intro gid' pid'
                                  rw [statusOf_appendLog]
                                  exact statusOf_addExperience reg g p x gid' pid'
                                cases hit : rw.items with
                                | none =>
                                    simp only [hit]
                                    split <;> try split
                                    all_goals try split
                                    all_goals exact h1 gid pid
                                | some items =>
                                    simp only [hit]
                                    cases hri : rewardItems (appendLog (addExperience reg g p x).2 g
                                        (pl.name ++ " gained " ++ toString x ++ " XP.")) g p items with
                                    | error e =>
                                        simp only [hri]
                                        rw [statusOf_addItemToPlayer]
                                        exact h1 gid pid
                                    | ok reg2 =>
                                        simp only [hri]
                                        have h2 := statusOf_rewardItems g p items _ reg2 hri gid pid
                                        split <;> try split
                                        all_goals try split
                                        all_goals exact h2.trans (h1 gid pid)
                          · rw [if_neg hx0]
                            cases hit : rw.items with
                            | none =>
                                simp only [hit]
                                split <;> try split
                                all_goals try split
                                all_goals rfl
                            | some items =>
                                simp only [hit]
                                cases hri : rewardItems reg g p items with
                                | error e =>
                                    simp only [hri]
                                    exact statusOf_addItemToPlayer reg g p _ gid pid
                                | ok reg2 =>
                                    simp only [hri]
                                    have h2 := statusOf_rewardItems g p items reg reg2 hri gid pid
                                    split <;> try split
                                    all_goals try split
                                    all_goals exact h2

theorem statusOf_aset_at (reg : Registry) (g : String) (g' : Game) (p : String)
    (p' : Player) (h : alookup g'.players p = some p') :
    statusOf (aset reg g g') g p = p'.character.bind Character.status := by
  unfold statusOf
  rw [charOf_aset_game, if_pos rfl, h]

theorem hpLe0At_aset_at (reg : Registry) (g : String) (g' : Game) (p : String)
    (p' : Player) (c : Character) (h : alookup g'.players p = some p')
    (hc : p'.character = some c) :
    hpLe0At (aset reg g g') g p = c.hp.le0 := by
  unfold hpLe0At charOf
  rw [alookup_aset, if_pos rfl]
  simp only []
  rw [h]
  simp only []
  rw [hc]

theorem statusOf_aset_other (reg : Registry) (g : String) (game : Game) (p : String)
    (p' : Player) (g' : Game) (gid pid : String)
    (hg : alookup reg g = some game) (hgp : g'.players = aset game.players p p')
    (hne : ¬(gid = g ∧ pid = p)) :
    statusOf (aset reg g g') gid pid = statusOf reg gid pid := by
  unfold statusOf
  rw [charOf_aset_game]
  by_cases h1 : gid = g
  · rw [if_pos h1]
    subst h1
    rw [hgp, alookup_aset]
    have h2 : ¬ pid = p := fun h => hne ⟨rfl, h⟩
    rw [if_neg h2]
    unfold charOf
    rw [hg]
  · rw [if_neg h1]

theorem statusEvolution_atk (env : Env) (reg : Registry) (g aid tid : String)
    (rng : List Nat) :
    StatusEvolution env (.atk g aid tid rng) reg := by
  intro gid pid
  unfold applyOp attack
  simp only []
  cases hg : alookup reg g with
  | none =>
      left
      simp only [hg]
  | some game =>
      simp only [hg]
      cases ha : alookup game.players aid with
      | none =>
          left
          try simp only [ha]
          try rfl
      | some att =>
          try simp only [ha]
          cases ht : alookup game.players tid with
          | none =>
              left
              try simp only [ht]
              try rfl
          | some tgt =>
              try simp only [ht]
              try simp only []
              by_cases hhit : (((rollDie rng).1 : Int) ≥ acAttack tgt.character)
              · rw [if_pos (decide_eq_true hhit)]
                by_cases hcell : gid = g ∧ pid = tid
                · obtain ⟨h1, h2⟩ := hcell
                  subst h1
                  subst h2
                  set c2 := applyDamageToCharacter tgt.character (rollDie (rollDie rng).2).1 with hc2
                  have hsat : statusOf
                      (aset reg gid ({ game with players := aset game.players pid ({ tgt with character := some c2 }) })) gid pid = c2.status := by
                    rw [statusOf_aset_at reg gid _ pid ({ tgt with character := some c2 })
                      (by simp only []; rw [alookup_aset, if_pos rfl])]
                    rfl
                  have hhp2 : hpLe0At
                      (aset reg gid ({ game with players := aset game.players pid ({ tgt with character := some c2 }) })) gid pid = c2.hp.le0 := by
                    apply hpLe0At_aset_at reg gid _ pid ({ tgt with character := some c2 }) c2
                    · simp only []
                      rw [alookup_aset, if_pos rfl]
                    · rfl
                  by_cases hle : c2.hp.le0 = true
                  · right
                    refine ⟨?_, ?_, trivial⟩
                    · rw [hsat, applyDamage_status, ← hc2, if_pos hle]
                    · rw [hhp2, hle]
                  · left
                    rw [hsat, applyDamage_status, ← hc2, if_neg hle]
                    simp only [statusOf, charOf, hg, ht]
                    cases htc : tgt.character
                    all_goals try simp only [htc]
                    all_goals rfl
                · left
                  exact statusOf_aset_other reg g game tid _ _ gid pid hg (by rfl) hcell
              · left
                rw [if_neg (fun h => hhit (of_decide_eq_true h))]

theorem statusEvolution_mAtk (env : Env) (reg : Registry) (g mid tid : String)
    (rng : List Nat) :
    StatusEvolution env (.mAtk g mid tid rng) reg := by
  intro gid pid
  unfold applyOp monsterAttack
  simp only []
  cases hg : alookup reg g with
  | none =>
      left
      try simp only [hg]
      try rfl
  | some game =>
      try simp only [hg]
      cases hm : alookup game.monsters mid with
      | none =>
          left
          try simp only [hm]
          try rfl
      | some monster =>
          try simp only [hm]
          cases ht : alookup game.players tid with
          | none =>
              left
              try simp only [ht]
              try rfl
          | some target =>
              try simp only [ht]
              try simp only []
              by_cases hhit : rollGe (rollDie rng).1 (acTyped target.character) = true
              · rw [if_pos hhit]
                by_cases hcell : gid = g ∧ pid = tid
                · obtain ⟨h1, h2⟩ := hcell
                  subst h1
                  subst h2
                  set dmg := (match findDice (monsterDamageStr env monster.type).toList with
                    | some (count, _, bonus) =>
                        let r := rollDice count (rollDie rng).2
                        ((match bonus with | some b => b | none => 0) + r.1, r.2)
                    | none => rollDie (rollDie rng).2).1 with hdmg
                  set c2 := applyDamageToCharacter target.character dmg with hc2
                  have hsat : statusOf
                      (aset reg gid ({ game with players := aset game.players pid ({ target with character := some c2 }) })) gid pid = c2.status := by
                    rw [statusOf_aset_at reg gid _ pid ({ target with character := some c2 })
                      (by simp only []; rw [alookup_aset, if_pos rfl])]
                    rfl
                  have hhp2 : hpLe0At
                      (aset reg gid ({ game with players := aset game.players pid ({ target with character := some c2 }) })) gid pid = c2.hp.le0 := by
                    apply hpLe0At_aset_at reg gid _ pid ({ target with character := some c2 }) c2
                    · simp only []
                      rw [alookup_aset, if_pos rfl]
                    · rfl
                  by_cases hle : c2.hp.le0 = true
                  · right
                    refine ⟨?_, ?_, trivial⟩
                    · rw [hsat, applyDamage_status, ← hc2, if_pos hle]
                    · rw [hhp2, hle]
                  · left
                    rw [hsat, applyDamage_status, ← hc2, if_neg hle]
                    simp only [statusOf, charOf, hg, ht]
                    cases htc : target.character
                    all_goals try simp only [htc]
                    all_goals rfl
                · left
                  exact statusOf_aset_other reg g game tid _ _ gid pid hg (by rfl) hcell
              · left
                rw [if_neg hhit]

theorem materialize_status (oc : Option Character) :
    (match oc with
      | some c => c
      | none => ({ hp := JVal.num 0 } : Character)).status = oc.bind Character.status := by
  cases oc <;> rfl

theorem statusEvolution_cast (env : Env) (reg : Registry)
    (g cid sn tt tid : String) (rng : List Nat) :
    StatusEvolution env (.cast g cid sn tt tid rng) reg := by
  intro gid pid
  unfold applyOp castSpell
  simp only []
  cases hsp : findSpellByName env sn with
  | none =>
      left
      try simp only [hsp]
      try rfl
  | some spell =>
      try simp only [hsp]
      cases hg : alookup reg g with
      | none =>
          left
          try simp only [hg]
          try rfl
      | some game =>
          try simp only [hg]
          cases hca : alookup game.players cid with
          | none =>
              left
              try simp only [hca]
              try rfl
          | some caster =>
              try simp only [hca]
              try simp only []
              by_cases hboth : (if tt = "player" then alookup game.players tid else none).isNone = true ∧
                  (if tt = "monster" then alookup game.monsters tid else none).isNone = true
              · left
                rw [if_pos hboth]
              · rw [if_neg hboth]
                cases hef : spell.effect with
                | none =>
                    left
                    try simp only [hef]
                    exact statusOf_eq_of_charOf_eq
                      (charOf_aset_preserving reg g game _ hg (by rfl) gid pid)
                | some eff =>
                    try simp only [hef]
                    by_cases hhe : (truthyStr eff.heal).isSome = true
                    · rw [dif_pos hhe]
                      cases htp : (if tt = "player" then alookup game.players tid else none) with
                      | none =>
                          left
                          try simp only [htp]
                          try rfl
                      | some target =>
                          try simp only [htp]
                          left
                          have htP : alookup game.players tid = some target := by
                            by_cases h : tt = "player"
                            · rw [if_pos h] at htp
                              exact htp
                            · rw [if_neg h] at htp
                              cases htp
                          apply statusOf_aset_players_samestatus reg g game tid _ _ hg (by rfl)
                          cases htc : target.character with
                          | some c =>
                              simp only [htc]
                              simp only [statusOf, charOf, hg, htP, htc]
                              rfl
                          | none =>
                              simp only [htc]
                              simp only [statusOf, charOf, hg, htP, htc]
                              rfl
                    · rw [dif_neg hhe]
                      by_cases hdm : (truthyStr eff.damage).isSome = true
                      · rw [dif_pos hdm]
                        have hdop : IsDamageOp env (Op.cast g cid sn tt tid rng) := by
                          unfold IsDamageOp
                          simp only [hsp, hef]
                          exact ⟨Option.not_isSome_iff_eq_none.mp (by simpa using hhe), hdm⟩
                        cases htp : (if tt = "player" then alookup game.players tid else none) with
                        | some target =>
                            try simp only [htp]
                            have htP : alookup game.players tid = some target := by
                              by_cases h : tt = "player"
                              · rw [if_pos h] at htp
                                exact htp
                              · rw [if_neg h] at htp
                                cases htp
                            by_cases hhit : rollGe (rollDie (rollFromNotation ((truthyStr eff.damage).get hdm) rng).2).1 (acTyped target.character) = true
                            · rw [if_pos hhit]
                              try simp only []
                              by_cases hcell : gid = g ∧ pid = tid
                              · obtain ⟨h1, h2⟩ := hcell
                                subst h1
                                subst h2
                                by_cases hle : ((match target.character with
                                    | some c => c
                                    | none => ({ hp := JVal.num 0 } : Character)).hp.sub
                                      (((if rollGe (rollDie (rollFromNotation ((truthyStr eff.damage).get hdm) rng).2).1 (acTyped target.character) then (rollFromNotation ((truthyStr eff.damage).get hdm) rng).1 else 0 : Nat)) : Int)).le0 = true
                                · right
                                  refine ⟨?_, ?_, hdop⟩
                                  · rw [statusOf_aset_at _ _ _ _ _ (by simp only []; rw [alookup_aset, if_pos rfl])]
                                    rw [if_pos hle]
                                    rfl
                                  · rw [hpLe0At_aset_at _ _ _ _ _ _ (by simp only []; rw [alookup_aset, if_pos rfl]) (by rfl)]
                                    rw [if_pos hle]
                                    exact hle
                                · left
                                  rw [statusOf_aset_at _ _ _ _ _ (by simp only []; rw [alookup_aset, if_pos rfl])]
                                  rw [if_neg hle]
                                  simp only [statusOf, charOf, hg, htP]
                                  exact materialize_status target.character
                              · left
                                exact statusOf_aset_other reg g game tid _ _ gid pid hg (by rfl) hcell
                            · rw [if_neg hhit]
                              left
                              exact statusOf_eq_of_charOf_eq
                                (charOf_aset_preserving reg g game _ hg (by rfl) gid pid)
                        | none =>
                            try simp only [htp]
                            cases htm : (if tt = "monster" then alookup game.monsters tid else none) with
                            | none =>
                                left
                                try simp only [htm]
                                try rfl
                            | some monster =>
                                try simp only [htm]
                                left
                                by_cases hhit : rollGe (rollDie (rollFromNotation ((truthyStr eff.damage).get hdm) rng).2).1 (JVal.num (if monster.ac = 0 then 10 else monster.ac)) = true
                                · rw [if_pos hhit]
                                  try simp only []
                                  exact statusOf_eq_of_charOf_eq
                                    (charOf_aset_preserving reg g game _ hg (by rfl) gid pid)
                                · rw [if_neg hhit]
                                  exact statusOf_eq_of_charOf_eq
                                    (charOf_aset_preserving reg g game _ hg (by rfl) gid pid)
                      · rw [dif_neg hdm]
                        left
                        exact statusOf_eq_of_charOf_eq
                          (charOf_aset_preserving reg g game _ hg (by rfl) gid pid)

/-- C2: per engine operation, a character's status field is unchanged
unless a damage-applying operation (attack, monsterAttack, or a damage
spell) sets it to "unconscious" with the resulting hit points comparing
<= 0; in particular an "unconscious" status is never cleared (healing
included), and the damage primitive sets "unconscious" exactly when the
new hit points compare <= 0 (or it was already set). -/
theorem unconscious_status_law (env : Env) (reg : Registry) (op : Op) :
    StatusEvolution env op reg ∧
    (∀ gid pid, statusOf reg gid pid = some "unconscious" →
        statusOf (applyOp env reg op) gid pid = some "unconscious") ∧
    (∀ (oc : Option Character) (d : Nat),
        (applyDamageToCharacter oc d).status = some "unconscious" ↔
          ((applyDamageToCharacter oc d).hp.le0 = true ∨
           oc.bind Character.status = some "unconscious")) := by
  have hse : StatusEvolution env op reg := by
    cases op with
    | join g p n => exact statusEvolution_join env reg g p n
    | createChar g p patch rng => exact statusEvolution_createChar env reg g p patch rng
    | selectCamp g c => exact statusEvolution_selectCamp env reg g c
    | spawn g mt iid => exact statusEvolution_spawn env reg g mt iid
    | atk g a t rng => exact statusEvolution_atk env reg g a t rng
    | atkMonster g a i rng => exact statusEvolution_atkMonster env reg g a i rng
    | mAtk g i t rng => exact statusEvolution_mAtk env reg g i t rng
    | cast g c s tt t rng => exact statusEvolution_cast env reg g c s tt t rng
    | give g p it => exact statusEvolution_give env reg g p it
    | use g p it rng => exact statusEvolution_use env reg g p it rng
    | startDlg g p d c => exact statusEvolution_startDlg env reg g p d c
    | choose g p d cv nd idx => exact statusEvolution_choose env reg g p d cv nd idx
  refine ⟨hse, ?_, ?_⟩
  · intro gid pid hunc
    rcases hse gid pid with h | h
    · rw [h, hunc]
    · exact h.1
  · intro oc d
    rw [applyDamage_status]
    by_cases hle : (applyDamageToCharacter oc d).hp.le0 = true
    · rw [if_pos hle]
      simp [hle]
    · rw [if_neg hle]
      constructor
      · intro h
        right
        cases oc with
        | some ch => simpa using h
        | none => cases h
      · intro h
        rcases h with h | h
        · exact absurd h hle
        · cases oc with
          | some ch => simpa using h
          | none => cases h

/-- Witness for C2 at a concrete state: an unconscious character stays
unconscious across a join operation. -/
theorem unconscious_status_law_witness :
    statusOf (applyOp envPotion regUnc (Op.join "g1" "p1" "Bob")) "g1" "p1" =
      some "unconscious" :=
  (unconscious_status_law envPotion regUnc (Op.join "g1" "p1" "Bob")).2.1 "g1" "p1" (by rfl)

theorem monstersOf_aset (reg : Registry) (g : String) (g' : Game) (gid : String) :
    monstersOf (aset reg g g') gid =
      if gid = g then some g'.monsters else monstersOf reg gid := by
  unfold monstersOf
  rw [alookup_aset]
  by_cases h : gid = g
  · rw [if_pos h, if_pos h]
    rfl
  · rw [if_neg h, if_neg h]

theorem monsterMapWF_nil : MonsterMapWF [] :=
  ⟨List.nodup_nil, fun _ _ h => by cases h⟩

theorem monstersWF_of_preserved {reg reg' : Registry}
    (hwf : MonstersWF reg) (h : MonstersPreserved reg reg') : MonstersWF reg' := by
  intro g ms hms
  rcases h g with h2 | h2
  · rw [h2] at hms
    exact hwf g ms hms
  · rw [h2] at hms
    cases hms
    exact monsterMapWF_nil

theorem monstersPreserved_refl (reg : Registry) : MonstersPreserved reg reg :=
  fun _ => Or.inl rfl

theorem monstersPreserved_trans {r1 r2 r3 : Registry}
    (h12 : MonstersPreserved r1 r2) (h23 : MonstersPreserved r2 r3) :
    MonstersPreserved r1 r3 := by
  intro g
  rcases h23 g with h | h
  · rw [h]
    exact h12 g
  · right
    exact h

theorem monstersPreserved_aset_case (reg : Registry) (g : String) (g' : Game)
    (h : (∃ game, alookup reg g = some game ∧ g'.monsters = game.monsters) ∨
         g'.monsters = []) :
    MonstersPreserved reg (aset reg g g') := by
  intro gid
  by_cases h2 : gid = g
  · subst h2
    rcases h with ⟨game, hg, hm⟩ | hm
    · left
      rw [monstersOf_aset, if_pos rfl, hm]
      unfold monstersOf
      rw [hg]
      rfl
    · right
      rw [monstersOf_aset, if_pos rfl, hm]
  · left
    rw [monstersOf_aset, if_neg h2]

theorem monsterMapWF_aset (ms : List (String × Monster)) (iid : String) (m : Monster)
    (h : MonsterMapWF ms) (hm : 0 < m.hp ∧ m.status = "alive") :
    MonsterMapWF (aset ms iid m) := by
  refine ⟨keysNodup_aset ms iid m h.1, ?_⟩
  intro k mk hk
  rw [alookup_aset] at hk
  by_cases h2 : k = iid
  · rw [if_pos h2] at hk
    cases hk
    exact hm
  · rw [if_neg h2] at hk
    exact h.2 k mk hk

theorem monsterMapWF_aerase (ms : List (String × Monster)) (iid : String)
    (h : MonsterMapWF ms) : MonsterMapWF (aerase ms iid) := by
  refine ⟨keysNodup_aerase ms iid h.1, ?_⟩
  intro k mk hk
  rw [alookup_aerase ms k iid h.1] at hk
  by_cases h2 : k = iid
  · rw [if_pos h2] at hk
    cases hk
  · rw [if_neg h2] at hk
    exact h.2 k mk hk

theorem monstersPreserved_createGame (reg : Registry) (g : String) :
    MonstersPreserved reg (createGame reg g).2 := by
  unfold createGame
  cases hg : alookup reg g with
  | some game =>
      simp only [hg]
      exact monstersPreserved_refl reg
  | none =>
      simp only [hg]
      exact monstersPreserved_aset_case reg g _ (Or.inr rfl)

theorem monstersPreserved_appendLog (reg : Registry) (g m : String) :
    MonstersPreserved reg (appendLog reg g m) := by
  unfold appendLog createGame
  cases hg : alookup reg g with
  | some game =>
      simp only [hg]
      exact monstersPreserved_aset_case reg g _ (Or.inl ⟨game, hg, rfl⟩)
  | none =>
      simp only [hg]
      refine monstersPreserved_trans
        (monstersPreserved_aset_case reg g ({ id := g } : Game) (Or.inr rfl)) ?_
      exact monstersPreserved_aset_case _ g _ (Or.inr rfl)

theorem monstersPreserved_addPlayer (reg : Registry) (g p n : String) :
    MonstersPreserved reg (addPlayer reg g p n).2 := by
  unfold addPlayer createGame
  cases hg : alookup reg g with
  | some game =>
      simp only [hg]
      cases hp : alookup game.players p with
      | some pl =>
          simp only [hp]
          exact monstersPreserved_refl reg
      | none =>
          simp only [hp]
          exact monstersPreserved_aset_case reg g _ (Or.inl ⟨game, hg, rfl⟩)
  | none =>
      simp only [hg]
      simp only [alookup]
      refine monstersPreserved_trans
        (monstersPreserved_aset_case reg g ({ id := g } : Game) (Or.inr rfl)) ?_
      exact monstersPreserved_aset_case _ g _ (Or.inr rfl)

theorem monstersPreserved_joinGame (reg : Registry) (g p n : String) :
    MonstersPreserved reg (joinGame reg g p n).2 := by
  unfold joinGame
  exact monstersPreserved_trans (monstersPreserved_addPlayer reg g p n)
    (monstersPreserved_appendLog _ g _)

theorem monstersPreserved_setCharacter (reg : Registry) (g p : String)
    (patch : CharPatch) :
    MonstersPreserved reg (setCharacter reg g p patch).2 := by
  unfold setCharacter
  simp only []
  exact monstersPreserved_trans (monstersPreserved_createGame reg g)
    (monstersPreserved_aset_case _ g _
      (Or.inl ⟨(createGame reg g).1, createGame_lookup reg g, rfl⟩))

theorem monstersPreserved_addItemToPlayer (reg : Registry) (g p it : String) :
    MonstersPreserved reg (addItemToPlayer reg g p it).2 := by
  unfold addItemToPlayer
  simp only []
  cases hp : alookup (createGame reg g).1.players p with
  | none =>
      simp only [hp]
      exact monstersPreserved_createGame reg g
  | some pl =>
      simp only [hp]
      exact monstersPreserved_trans (monstersPreserved_createGame reg g)
        (monstersPreserved_aset_case _ g _
          (Or.inl ⟨(createGame reg g).1, createGame_lookup reg g, rfl⟩))

theorem monstersPreserved_removeItemFromPlayer (reg : Registry) (g p it : String) :
    MonstersPreserved reg (removeItemFromPlayer reg g p it).2 := by
  unfold removeItemFromPlayer
  cases hg : alookup reg g with
  | none =>
      simp only [hg]
      exact monstersPreserved_refl reg
  | some game =>
      simp only [hg]
      cases hp : alookup game.players p with
      | none =>
          simp only [hp]
          exact monstersPreserved_refl reg
      | some pl =>
          simp only [hp]
          cases hc : pl.character with
          | none =>
              simp only [hc]
              exact monstersPreserved_refl reg
          | some c =>
              simp only [hc]
              cases hi : c.inventory with
              | none =>
                  simp only [hi]
                  exact monstersPreserved_refl reg
              | some inv =>
                  simp only [hi]
                  by_cases hmem : it ∈ inv
                  · rw [if_pos hmem]
                    exact monstersPreserved_aset_case reg g _ (Or.inl ⟨game, hg, rfl⟩)
                  · rw [if_neg hmem]
                    exact monstersPreserved_refl reg

theorem monstersPreserved_addExperience (reg : Registry) (g p : String) (xp : Int) :
    MonstersPreserved reg (addExperience reg g p xp).2 := by
  unfold addExperience
  cases hg : alookup reg g with
  | none =>
      simp only [hg]
      exact monstersPreserved_refl reg
  | some game =>
      simp only [hg]
      cases hp : alookup game.players p with
      | none =>
          simp only [hp]
          exact monstersPreserved_refl reg
      | some pl =>
          simp only [hp]
          cases hc : pl.character with
          | none =>
              simp only [hc]
              exact monstersPreserved_refl reg
          | some c =>
              simp only [hc]
              cases hl : c.level with
              | none =>
                  simp only [hl]
                  exact monstersPreserved_aset_case reg g _ (Or.inl ⟨game, hg, rfl⟩)
              | some lv =>
                  simp only [hl]
                  exact monstersPreserved_aset_case reg g _ (Or.inl ⟨game, hg, rfl⟩)

theorem monstersPreserved_rewardItems (g p : String) :
    ∀ (items : List String) (reg reg' : Registry),
      rewardItems reg g p items = .ok reg' → MonstersPreserved reg reg' := by
  intro items
  induction items with
  | nil =>
      intro reg reg' h
      unfold rewardItems at h
      cases h
      exact monstersPreserved_refl reg
  | cons it rest ih =>
      intro reg reg' h
      unfold rewardItems at h
      simp only [] at h
      cases hgp : getPlayer (addItemToPlayer reg g p it).2 g p with
      | none =>
          rw [hgp] at h
          cases h
      | some pl =>
          rw [hgp] at h
          simp only [] at h
          refine monstersPreserved_trans (monstersPreserved_addItemToPlayer reg g p it) ?_
          refine monstersPreserved_trans
            (monstersPreserved_appendLog _ g (pl.name ++ " received item " ++ it ++ ".")) ?_
          exact ih _ _ h

theorem monstersPreserved_giveItem (env : Env) (reg : Registry) (g p it : String) :
    MonstersPreserved reg (giveItem env reg g p it).2 := by
  unfold giveItem
  cases hi : alookup env.items it with
  | none =>
      simp only [hi]
      exact monstersPreserved_refl reg
  | some item =>
      simp only [hi]
      cases hr : (addItemToPlayer reg g p it).1 with
      | none =>
          simp only [hr]
          exact monstersPreserved_addItemToPlayer reg g p it
      | some player =>
          simp only [hr]
          exact monstersPreserved_trans (monstersPreserved_addItemToPlayer reg g p it)
            (monstersPreserved_appendLog _ g _)

theorem monstersPreserved_attack (reg : Registry) (g aid tid : String)
    (rng : List Nat) :
    MonstersPreserved reg (attack reg g aid tid rng).2.1 := by
  unfold attack
  cases hg : alookup reg g with
  | none =>
      simp only [hg]
      exact monstersPreserved_refl reg
  | some game =>
      simp only [hg]
      cases ha : alookup game.players aid with
      | none =>
          try simp only [ha]
          exact monstersPreserved_refl reg
      | some att =>
          try simp only [ha]
          cases ht : alookup game.players tid with
          | none =>
              try simp only [ht]
              exact monstersPreserved_refl reg
          | some tgt =>
              try simp only [ht]
              try simp only []
              by_cases hhit : (((rollDie rng).1 : Int) ≥ acAttack tgt.character)
              · rw [if_pos (decide_eq_true hhit)]
                exact monstersPreserved_aset_case reg g _ (Or.inl ⟨game, hg, rfl⟩)
              · rw [if_neg (fun h => hhit (of_decide_eq_true h))]
                exact monstersPreserved_refl reg

theorem monstersPreserved_monsterAttack (env : Env) (reg : Registry)
    (g mid tid : String) (rng : List Nat) :
    MonstersPreserved reg (monsterAttack env reg g mid tid rng).2.1 := by
  unfold monsterAttack
  cases hg : alookup reg g with
  | none =>
      simp only [hg]
      exact monstersPreserved_refl reg
  | some game =>
      simp only [hg]
      cases hm : alookup game.monsters mid with
      | none =>
          try simp only [hm]
          exact monstersPreserved_refl reg
      | some monster =>
          try simp only [hm]
          cases ht : alookup game.players tid with
          | none =>
              try simp only [ht]
              exact monstersPreserved_refl reg
          | some target =>
              try simp only [ht]
              try simp only []
              by_cases hhit : rollGe (rollDie rng).1 (acTyped target.character) = true
              · rw [if_pos hhit]
                exact monstersPreserved_aset_case reg g _ (Or.inl ⟨game, hg, rfl⟩)
              · rw [if_neg hhit]
                exact monstersPreserved_refl reg

theorem monstersPreserved_useItem (env : Env) (reg : Registry) (g p it : String)
    (rng : List Nat) :
    MonstersPreserved reg (useItem env reg g p it rng).2.1 := by
  unfold useItem
  simp only []
  cases hi : alookup env.items it with
  | none =>
      simp only [hi]
      exact monstersPreserved_refl reg
  | some item =>
      simp only [hi]
      have hrm : MonstersPreserved reg (removeItemFromPlayer reg g p it).2 :=
        monstersPreserved_removeItemFromPlayer reg g p it
      cases hr : (removeItemFromPlayer reg g p it).1 with
      | none =>
          simp only [hr]
          rw [if_neg (by simp)]
          exact hrm
      | some s =>
          simp only [hr]
          by_cases hs : s = ""
          · rw [if_neg (by simp [hs])]
            exact hrm
          · rw [if_pos (by simp [hs])]
            cases hgp : getPlayer (removeItemFromPlayer reg g p it).2 g p with
            | none =>
                simp only [hgp]
                exact hrm
            | some player =>
                simp only [hgp]
                cases hc : player.character with
                | none =>
                    simp only [hc]
                    exact hrm
                | some c =>
                    simp only [hc]
                    cases hhe : truthyStr (match item.effect with
                      | some e => e.heal
                      | none => none) with
                    | some healStr =>
                        simp only [hhe]
                        refine monstersPreserved_trans ?_ (monstersPreserved_appendLog _ g _)
                        cases halk : alookup (removeItemFromPlayer reg g p it).2 g with
                        | none =>
                            simp only [halk]
                            exact hrm
                        | some gg =>
                            simp only [halk]
                            exact monstersPreserved_trans hrm
                              (monstersPreserved_aset_case _ g _ (Or.inl ⟨gg, halk, rfl⟩))
                    | none =>
                        simp only [hhe]
                        cases hab : (match item.effect with
                          | some e => e.acBonus
                          | none => none) with
                        | some b =>
                            simp only [hab]
                            by_cases hb0 : b ≠ 0
                            · rw [if_pos hb0]
                              refine monstersPreserved_trans ?_
                                (monstersPreserved_appendLog _ g _)
                              cases halk : alookup (removeItemFromPlayer reg g p it).2 g with
                              | none =>
                                  simp only [halk]
                                  exact hrm
                              | some gg =>
                                  simp only [halk]
                                  exact monstersPreserved_trans hrm
                                    (monstersPreserved_aset_case _ g _
                                      (Or.inl ⟨gg, halk, rfl⟩))
                            · rw [if_neg hb0]
                              exact monstersPreserved_trans hrm
                                (monstersPreserved_appendLog _ g _)
                        | none =>
                            simp only [hab]
                            exact monstersPreserved_trans hrm
                              (monstersPreserved_appendLog _ g _)

theorem monstersPreserved_createCharacter (env : Env) (reg : Registry)
    (g p : String) (patch : CharPatch) (rng : List Nat) :
    MonstersPreserved reg (createCharacter env reg g p patch rng).2.1 := by
  unfold createCharacter
  simp only []
  exact monstersPreserved_trans (monstersPreserved_setCharacter reg g p _)
    (monstersPreserved_appendLog _ g _)

theorem monstersPreserved_selectCampaign (env : Env) (reg : Registry)
    (g cid : String) :
    MonstersPreserved reg (selectCampaign env reg g cid).2 := by
  unfold selectCampaign
  cases hc : getCampaign env cid with
  | none =>
      simp only [hc]
      exact monstersPreserved_refl reg
  | some campaign =>
      simp only [hc]
      refine monstersPreserved_trans ?_ (monstersPreserved_appendLog _ g _)
      exact monstersPreserved_trans (monstersPreserved_createGame reg g)
        (monstersPreserved_aset_case _ g _
          (Or.inl ⟨(createGame reg g).1, createGame_lookup reg g, rfl⟩))

theorem monstersPreserved_choose (env : Env) (reg : Registry)
    (g p d cv nd : String) (idx : Nat) :
    MonstersPreserved reg (chooseDialogueOption env reg g p d cv nd idx).2 := by
  unfold chooseDialogueOption
  simp only []
  cases hd : getDialogue env d with
  | none =>
      simp only [hd]
      exact monstersPreserved_refl reg
  | some file =>
      simp only [hd]
      cases hcv : (match file.dialogues with
        | some l => l
        | none => ([] : List Conversation)).find? (fun dd : Conversation => dd.id == cv) with
      | none =>
          simp only [hcv]
          exact monstersPreserved_refl reg
      | some conv =>
          simp only [hcv]
          cases hnd : alookup conv.nodes nd with
          | none =>
              simp only [hnd]
              exact monstersPreserved_refl reg
          | some node =>
              simp only [hnd]
              cases hop : (match node.options with
                | some l => l
                | none => ([] : List DialogueOption)).get? idx with
              | none =>
                  simp only [hop]
                  exact monstersPreserved_refl reg
              | some opt =>
                  simp only [hop]
                  cases hrw : opt.reward with
                  | none =>
                      simp only [hrw]
                      split <;> try split
                      all_goals try split
                      all_goals exact monstersPreserved_refl reg
                  | some rw =>
                      simp only [hrw]
                      cases hxp : rw.xp with
                      | none =>
                          simp only [hxp]
                          cases hit : rw.items with
                          | none =>
                              simp only [hit]
                              split <;> try split
                              all_goals try split
                              all_goals exact monstersPreserved_refl reg
                          | some items =>
                              simp only [hit]
                              cases hri : rewardItems reg g p items with
                              | error e =>
                                  simp only [hri]
                                  exact monstersPreserved_addItemToPlayer reg g p _
                              | ok reg2 =>
                                  simp only [hri]
                                  have h2 := monstersPreserved_rewardItems g p items reg reg2 hri
                                  split <;> try split
                                  all_goals try split
                                  all_goals exact h2
                      | some x =>
                          simp only [hxp]
                          by_cases hx0 : x ≠ 0
                          · rw [if_pos hx0]
                            cases hgp2 : getPlayer (addExperience reg g p x).2 g p with
                            | none =>
                                simp only [hgp2]
                                exact monstersPreserved_addExperience reg g p x
                            | some pl =>
                                simp only [hgp2]
                                have h1 : MonstersPreserved reg
                                    (appendLog (addExperience reg g p x).2 g
                                      (pl.name ++ " gained " ++ toString x ++ " XP.")) :=
                                  monstersPreserved_trans
                                    (monstersPreserved_addExperience reg g p x)
                                    (monstersPreserved_appendLog _ g _)
                                cases hit : rw.items with
                                | none =>
                                    simp only [hit]
                                    split <;> try split
                                    all_goals try split
                                    all_goals exact h1
                                | some items =>
                                    simp only [hit]
                                    cases hri : rewardItems (appendLog (addExperience reg g p x).2 g
                                        (pl.name ++ " gained " ++ toString x ++ " XP.")) g p items with
                                    | error e =>
                                        simp only [hri]
                                        exact monstersPreserved_trans h1
                                          (monstersPreserved_addItemToPlayer _ g p _)
                                    | ok reg2 =>
                                        simp only [hri]
                                        have h2 := monstersPreserved_rewardItems g p items _ reg2 hri
                                        split <;> try split
                                        all_goals try split
                                        all_goals exact monstersPreserved_trans h1 h2
                          · rw [if_neg hx0]
                            cases hit : rw.items with
                            | none =>
                                simp only [hit]
                                split <;> try split
                                all_goals try split
                                all_goals exact monstersPreserved_refl reg
                            | some items =>
                                simp only [hit]
                                cases hri : rewardItems reg g p items with
                                | error e =>
                                    simp only [hri]
                                    exact monstersPreserved_addItemToPlayer reg g p _
                                | ok reg2 =>
                                    simp only [hri]
                                    have h2 := monstersPreserved_rewardItems g p items reg reg2 hri
                                    split <;> try split
                                    all_goals try split
                                    all_goals exact h2

theorem monstersWF_spawnMonsterC (env : Env) (reg : Registry) (g mt iid : String)
    (henv : EnvMonstersWF env) (hwf : MonstersWF reg) :
    MonstersWF (spawnMonsterC env reg g mt iid).2 := by
  unfold spawnMonsterC
  cases hr : alookup env.monsters mt with
  | none =>
      simp only [hr]
      exact hwf
  | some rules =>
      simp only [hr]
      have hwf2 : MonstersWF (createGame reg g).2 :=
        monstersWF_of_preserved hwf (monstersPreserved_createGame reg g)
      have hmap : MonsterMapWF (createGame reg g).1.monsters := by
        apply hwf2 g
        unfold monstersOf
        rw [createGame_lookup reg g]
        rfl
      have h1 : MonstersWF (spawnMonsterM reg g iid mt rules).2 := by
        unfold spawnMonsterM
        simp only []
        intro g2 ms hms
        rw [monstersOf_aset] at hms
        by_cases h2 : g2 = g
        · rw [if_pos h2] at hms
          simp only [] at hms
          cases hms
          exact monsterMapWF_aset _ _ _ hmap ⟨henv mt rules hr, rfl⟩
        · rw [if_neg h2] at hms
          exact hwf2 g2 ms hms
      exact monstersWF_of_preserved h1 (monstersPreserved_appendLog _ g _)

theorem monstersWF_attackMonster (reg : Registry) (g aid iid : String)
    (rng : List Nat) (hwf : MonstersWF reg) :
    MonstersWF (attackMonster reg g aid iid rng).2.1 := by
  unfold attackMonster
  cases hg : alookup reg g with
  | none =>
      simp only [hg]
      exact hwf
  | some game =>
      simp only [hg]
      cases ha : alookup game.players aid with
      | none =>
          try simp only [ha]
          exact hwf
      | some attacker =>
          try simp only [ha]
          cases hm : alookup game.monsters iid with
          | none =>
              try simp only [hm]
              exact hwf
          | some monster =>
              try simp only [hm]
              try simp only []
              have hmap : MonsterMapWF game.monsters := by
                apply hwf g
                unfold monstersOf
                rw [hg]
                rfl
              by_cases hhit : ((rollDie rng).1 : Int) ≥ (if monster.ac = 0 then 10 else monster.ac)
              · rw [if_pos (decide_eq_true hhit)]
                by_cases hle : monster.hp - ((rollDie (rollDie rng).2).1 : Int) ≤ 0
                · rw [if_pos hle]
                  simp only []
                  intro g2 ms hms
                  rw [monstersOf_aset] at hms
                  by_cases h2 : g2 = g
                  · rw [if_pos h2] at hms
                    simp only [] at hms
                    cases hms
                    exact monsterMapWF_aerase _ _ hmap
                  · rw [if_neg h2] at hms
                    exact hwf g2 ms hms
                · rw [if_neg hle]
                  simp only []
                  intro g2 ms hms
                  rw [monstersOf_aset] at hms
                  by_cases h2 : g2 = g
                  · rw [if_pos h2] at hms
                    simp only [] at hms
                    cases hms
                    refine monsterMapWF_aset _ _ _ hmap ⟨?_, ?_⟩
                    · simp only []
                      omega
                    · exact (hmap.2 iid monster hm).2
                  · rw [if_neg h2] at hms
                    exact hwf g2 ms hms
              · rw [if_neg (fun h => hhit (of_decide_eq_true h))]
                exact hwf

theorem monstersWF_castSpell (env : Env) (reg : Registry)
    (g cid sn tt tid : String) (rng : List Nat) (hwf : MonstersWF reg) :
    MonstersWF (castSpell env reg g cid sn tt tid rng).2.1 := by
  unfold castSpell
  simp only []
  cases hsp : findSpellByName env sn with
  | none =>
      simp only [hsp]
      exact hwf
  | some spell =>
      simp only [hsp]
      cases hg : alookup reg g with
      | none =>
          simp only [hg]
          exact hwf
      | some game =>
          simp only [hg]
          cases hca : alookup game.players cid with
          | none =>
              try simp only [hca]
              exact hwf
          | some caster =>
              try simp only [hca]
              try simp only []
              by_cases hboth : (if tt = "player" then alookup game.players tid else none).isNone = true ∧
                  (if tt = "monster" then alookup game.monsters tid else none).isNone = true
              · rw [if_pos hboth]
                exact hwf
              · rw [if_neg hboth]
                cases hef : spell.effect with
                | none =>
                    try simp only [hef]
                    exact monstersWF_of_preserved hwf
                      (monstersPreserved_aset_case reg g _ (Or.inl ⟨game, hg, rfl⟩))
                | some eff =>
                    try simp only [hef]
                    by_cases hhe : (truthyStr eff.heal).isSome = true
                    · rw [dif_pos hhe]
                      cases htp : (if tt = "player" then alookup game.players tid else none) with
                      | none =>
                          try simp only [htp]
                          exact hwf
                      | some target =>
                          try simp only [htp]
                          exact monstersWF_of_preserved hwf
                            (monstersPreserved_aset_case reg g _ (Or.inl ⟨game, hg, rfl⟩))
                    · rw [dif_neg hhe]
                      by_cases hdm : (truthyStr eff.damage).isSome = true
                      · rw [dif_pos hdm]
                        cases htp : (if tt = "player" then alookup game.players tid else none) with
                        | some target =>
                            try simp only [htp]
                            by_cases hhit : rollGe (rollDie (rollFromNotation ((truthyStr eff.damage).get hdm) rng).2).1 (acTyped target.character) = true
                            · rw [if_pos hhit]
                              try simp only []
                              exact monstersWF_of_preserved hwf
                                (monstersPreserved_aset_case reg g _ (Or.inl ⟨game, hg, rfl⟩))
                            · rw [if_neg hhit]
                              exact monstersWF_of_preserved hwf
                                (monstersPreserved_aset_case reg g _ (Or.inl ⟨game, hg, rfl⟩))
                        | none =>
                            try simp only [htp]
                            cases htm : (if tt = "monster" then alookup game.monsters tid else none) with
                            | none =>
                                try simp only [htm]
                                exact hwf
                            | some monster =>
                                try simp only [htm]
                                have htM : alookup game.monsters tid = some monster := by
                                  by_cases h : tt = "monster"
                                  · rw [if_pos h] at htm
                                    exact htm
                                  · rw [if_neg h] at htm
                                    cases htm
                                have hmap : MonsterMapWF game.monsters := by
                                  apply hwf g
                                  unfold monstersOf
                                  rw [hg]
                                  rfl
                                by_cases hhit : rollGe (rollDie (rollFromNotation ((truthyStr eff.damage).get hdm) rng).2).1 (JVal.num (if monster.ac = 0 then 10 else monster.ac)) = true
                                · rw [if_pos hhit]
                                  try simp only []
                                  by_cases hle : monster.hp - (((if rollGe (rollDie (rollFromNotation ((truthyStr eff.damage).get hdm) rng).2).1 (JVal.num (if monster.ac = 0 then 10 else monster.ac)) then (rollFromNotation ((truthyStr eff.damage).get hdm) rng).1 else 0 : Nat)) : Int) ≤ 0
                                  · rw [if_pos hle]
                                    intro g2 ms hms
                                    rw [monstersOf_aset] at hms
                                    by_cases h2 : g2 = g
                                    · rw [if_pos h2] at hms
                                      simp only [] at hms
                                      cases hms
                                      exact monsterMapWF_aerase _ _ hmap
                                    · rw [if_neg h2] at hms
                                      exact hwf g2 ms hms
                                  · rw [if_neg hle]
                                    intro g2 ms hms
                                    rw [monstersOf_aset] at hms
                                    by_cases h2 : g2 = g
                                    · rw [if_pos h2] at hms
                                      simp only [] at hms
                                      cases hms
                                      refine monsterMapWF_aset _ _ _ hmap ⟨?_, ?_⟩
                                      · simp only []
                                        omega
                                      · exact (hmap.2 tid monster htM).2
                                    · rw [if_neg h2] at hms
                                      exact hwf g2 ms hms
                                · rw [if_neg hhit]
                                  exact monstersWF_of_preserved hwf
                                    (monstersPreserved_aset_case reg g _ (Or.inl ⟨game, hg, rfl⟩))
                      · rw [dif_neg hdm]
                        exact monstersWF_of_preserved hwf
                          (monstersPreserved_aset_case reg g _ (Or.inl ⟨game, hg, rfl⟩))

theorem monstersWF_applyOp (env : Env) (reg : Registry) (op : Op)
    (henv : EnvMonstersWF env) (hwf : MonstersWF reg) :
    MonstersWF (applyOp env reg op) := by
  cases op with
  | join g p n => exact monstersWF_of_preserved hwf (monstersPreserved_joinGame reg g p n)
  | createChar g p patch rng =>
      exact monstersWF_of_preserved hwf
        (monstersPreserved_createCharacter env reg g p patch rng)
  | selectCamp g c =>
      exact monstersWF_of_preserved hwf (monstersPreserved_selectCampaign env reg g c)
  | spawn g mt iid => exact monstersWF_spawnMonsterC env reg g mt iid henv hwf
  | atk g a t rng =>
      exact monstersWF_of_preserved hwf (monstersPreserved_attack reg g a t rng)
  | atkMonster g a i rng => exact monstersWF_attackMonster reg g a i rng hwf
  | mAtk g i t rng =>
      exact monstersWF_of_preserved hwf (monstersPreserved_monsterAttack env reg g i t rng)
  | cast g c s tt t rng => exact monstersWF_castSpell env reg g c s tt t rng hwf
  | give g p it => exact monstersWF_of_preserved hwf (monstersPreserved_giveItem env reg g p it)
  | use g p it rng =>
      exact monstersWF_of_preserved hwf (monstersPreserved_useItem env reg g p it rng)
  | startDlg g p d c => exact hwf
  | choose g p d cv nd idx =>
      exact monstersWF_of_preserved hwf (monstersPreserved_choose env reg g p d cv nd idx)

theorem monstersWF_reachable (env : Env) (henv : EnvMonstersWF env) :
    ∀ reg, Reachable env reg → MonstersWF reg := by
  intro reg h
  induction h with
  | init =>
      intro g ms hms
      cases hms
  | step op hr ih => exact monstersWF_applyOp env _ op henv ih

theorem getMonster_aset_game (reg : Registry) (g : String) (g' : Game) (iid : String) :
    getMonster (aset reg g g') g iid = alookup g'.monsters iid := by
  unfold getMonster
  rw [alookup_aset, if_pos rfl]

theorem attackMonster_removal_char (reg : Registry) (g aid iid : String)
    (rng : List Nat) (game : Game) (monster : Monster)
    (r : AttackMonsterResult) (reg' : Registry) (rng' : List Nat)
    (hg : alookup reg g = some game)
    (hnd : KeysNodup game.monsters)
    (hm : alookup game.monsters iid = some monster)
    (heq : attackMonster reg g aid iid rng = (.ok r, reg', rng')) :
    (getMonster reg' g iid = none ↔
      (r.hit = true ∧ monster.hp - (r.damage : Int) ≤ 0)) ∧
    (getMonster reg' g iid = none →
      r.monsterStatus = "dead" ∧ r.monsterRemainingHp ≤ 0) := by
  unfold attackMonster at heq
  simp only [hg] at heq
  cases ha : alookup game.players aid with
  | none =>
      simp only [ha] at heq
      injection heq with h1 h2
      injection h1
  | some attacker =>
      simp only [ha] at heq
      simp only [hm] at heq
      try simp only [] at heq
      by_cases hhit : ((rollDie rng).1 : Int) ≥ (if monster.ac = 0 then 10 else monster.ac)
      · rw [if_pos (decide_eq_true hhit)] at heq
        by_cases hle : monster.hp - ((rollDie (rollDie rng).2).1 : Int) ≤ 0
        · rw [if_pos hle] at heq
          injection heq with h1 h2
          injection h1 with h1
          injection h2 with h2a h2b
          subst h1
          subst h2a
          rw [getMonster_aset_game]
          simp only []
          rw [alookup_aerase game.monsters iid iid hnd, if_pos rfl]
          refine ⟨⟨fun _ => ⟨by trivial, ?_⟩, fun _ => by trivial⟩,
            fun _ => ⟨by trivial, ?_⟩⟩
          · try simp only []
            exact hle
          · try simp only []
            exact hle
        · rw [if_neg hle] at heq
          injection heq with h1 h2
          injection h1 with h1
          injection h2 with h2a h2b
          subst h1
          subst h2a
          rw [getMonster_aset_game]
          simp only []
          rw [alookup_aset, if_pos rfl]
          constructor
          · constructor
            · intro hnone
              cases hnone
            · intro hcon
              have hle2 := hcon.2
              simp only [] at hle2
              exact absurd hle2 hle
          · intro hnone
            cases hnone
      · rw [if_neg (fun h => hhit (of_decide_eq_true h))] at heq
        injection heq with h1 h2
        injection h1 with h1
        injection h2 with h2a h2b
        subst h1
        subst h2a
        have hsome : getMonster reg g iid = some monster := by
          unfold getMonster
          rw [hg]
          exact hm
        constructor
        · constructor
          · intro hnone
            rw [hsome] at hnone
            cases hnone
          · intro hcon
            have hh := hcon.1
            try simp only [] at hh
            cases hh
        · intro hnone
          rw [hsome] at hnone
          cases hnone

theorem castSpell_monster_removal_char (env : Env) (reg : Registry)
    (g cid sn tid : String) (rng : List Nat) (spell : SpellRule) (eff : SpellEffect)
    (ds : String) (game : Game) (caster : Player) (monster : Monster)
    (r : SpellResult) (reg' : Registry) (rng' : List Nat)
    (hsp : findSpellByName env sn = some spell)
    (hef : spell.effect = some eff)
    (hhe : truthyStr eff.heal = none)
    (hds : truthyStr eff.damage = some ds)
    (hg : alookup reg g = some game)
    (hnd : KeysNodup game.monsters)
    (hca : alookup game.players cid = some caster)
    (htM : alookup game.monsters tid = some monster)
    (heq : castSpell env reg g cid sn "monster" tid rng = (.ok r, reg', rng')) :
    ∀ d, r.damage = some d →
      (getMonster reg' g tid = none ↔
        (r.hit = some true ∧ monster.hp - (d : Int) ≤ 0)) := by
  unfold castSpell at heq
  simp only [hsp, hg, hca] at heq
  try simp only [] at heq
  simp only [htM, reduceIte] at heq
  rw [if_neg (by simp)] at heq
  rw [hef] at heq
  try simp only [] at heq
  have hheF : ¬ (truthyStr eff.heal).isSome = true := by
    rw [hhe]
    simp
  have hdmT : (truthyStr eff.damage).isSome = true := by
    rw [hds]
    rfl
  rw [dif_neg hheF] at heq
  rw [dif_pos hdmT] at heq
  have hget : (truthyStr eff.damage).get hdmT = ds := by
    simp [hds]
  rw [hget] at heq
  simp only [String.reduceEq, reduceIte, htM] at heq
  by_cases hhit : rollGe (rollDie (rollFromNotation ds rng).2).1
      (JVal.num (if monster.ac = 0 then 10 else monster.ac)) = true
  · rw [if_pos hhit] at heq
    try simp only [] at heq
    by_cases hle : monster.hp -
        (((if rollGe (rollDie (rollFromNotation ds rng).2).1
            (JVal.num (if monster.ac = 0 then 10 else monster.ac)) then
            (rollFromNotation ds rng).1 else 0 : Nat)) : Int) ≤ 0
    · rw [if_pos hle] at heq
      injection heq with h1 h2
      injection h1 with h1
      injection h2 with h2a h2b
      subst h1
      subst h2a
      intro d hd
      simp only [] at hd
      rw [if_pos hhit] at hd
      injection hd with hd
      rw [getMonster_aset_game]
      simp only []
      rw [alookup_aerase game.monsters tid tid hnd, if_pos rfl]
      refine ⟨fun _ => ⟨by trivial, ?_⟩, fun _ => by trivial⟩
      rw [← hd]
      rw [if_pos hhit] at hle
      exact hle
    · rw [if_neg hle] at heq
      injection heq with h1 h2
      injection h1 with h1
      injection h2 with h2a h2b
      subst h1
      subst h2a
      intro d hd
      simp only [] at hd
      rw [if_pos hhit] at hd
      injection hd with hd
      rw [getMonster_aset_game]
      simp only []
      rw [alookup_aset, if_pos rfl]
      constructor
      · intro hnone
        cases hnone
      · intro hcon
        have hle2 := hcon.2
        rw [← hd] at hle2
        rw [if_pos hhit] at hle
        exact absurd hle2 hle
  · rw [if_neg hhit] at heq
    try simp only [] at heq
    injection heq with h1 h2
    injection h1 with h1
    injection h2 with h2a h2b
    subst h1
    subst h2a
    intro d hd
    rw [getMonster_aset_game]
    simp only []
    rw [htM]
    constructor
    · intro hnone
      cases hnone
    · intro hcon
      have hh := hcon.1
      try simp only [] at hh
      cases hh

/-- C3: in every reachable state (under monster rules that spawn positive
hit points) every monster still present in a game's mapping has hit
points > 0 and status "alive"; and for each damage step (`attackMonster`,
or a damage spell cast at a monster target) the instance is absent from
the game's monster mapping afterwards iff that hit brought its hit
points to <= 0 — `attackMonster` reporting the removal with status
"dead" and remaining hit points <= 0. -/
theorem monster_removal_law (env : Env) :
    (∀ reg : Registry, EnvMonstersWF env → Reachable env reg →
        ∀ g ms, monstersOf reg g = some ms →
          KeysNodup ms ∧ ∀ iid m, alookup ms iid = some m →
            0 < m.hp ∧ m.status = "alive") ∧
    (∀ (reg : Registry) (g aid iid : String) (rng : List Nat) (game : Game)
        (monster : Monster) (r : AttackMonsterResult) (reg' : Registry)
        (rng' : List Nat),
        alookup reg g = some game →
        KeysNodup game.monsters →
        alookup game.monsters iid = some monster →
        attackMonster reg g aid iid rng = (.ok r, reg', rng') →
        ((getMonster reg' g iid = none ↔
            (r.hit = true ∧ monster.hp - (r.damage : Int) ≤ 0)) ∧
         (getMonster reg' g iid = none →
            r.monsterStatus = "dead" ∧ r.monsterRemainingHp ≤ 0))) ∧
    (∀ (reg : Registry) (g cid sn tid : String) (rng : List Nat)
        (spell : SpellRule) (eff : SpellEffect) (ds : String) (game : Game)
        (caster : Player) (monster : Monster) (r : SpellResult)
        (reg' : Registry) (rng' : List Nat),
        findSpellByName env sn = some spell →
        spell.effect = some eff →
        truthyStr eff.heal = none →
        truthyStr eff.damage = some ds →
        alookup reg g = some game →
        KeysNodup game.monsters →
        alookup game.players cid = some caster →
        alookup game.monsters tid = some monster →
        castSpell env reg g cid sn "monster" tid rng = (.ok r, reg', rng') →
        ∀ d, r.damage = some d →
          (getMonster reg' g tid = none ↔
            (r.hit = some true ∧ monster.hp - (d : Int) ≤ 0))) := by
  refine ⟨?_, ?_, ?_⟩
  · intro reg henv hreach g ms hms
    exact monstersWF_reachable env henv reg hreach g ms hms
  · intro reg g aid iid rng game monster r reg' rng' hg hnd hm heq
    exact attackMonster_removal_char reg g aid iid rng game monster r reg' rng'
      hg hnd hm heq
  · intro reg g cid sn tid rng spell eff ds game caster monster r reg' rng'
      hsp hef hhe hds hg hnd hca htM heq
    exact castSpell_monster_removal_char env reg g cid sn tid rng spell eff ds
      game caster monster r reg' rng' hsp hef hhe hds hg hnd hca htM heq

/-- Witness for C3 at a concrete attack: a goblin at 3 hit points hit
for 6 damage is removed from the mapping and reported dead. -/
theorem monster_removal_law_witness :
    getMonster (attackMonster regGoblin "g1" "p1" "m1" [20, 6]).2.1 "g1" "m1" = none ∧
    atkGoblinRes.monsterStatus = "dead" := by
  have h := (monster_removal_law envPotion).2.1 regGoblin "g1" "p1" "m1" [20, 6]
    gameGoblin goblinMon atkGoblinRes
    (attackMonster regGoblin "g1" "p1" "m1" [20, 6]).2.1
    (attackMonster regGoblin "g1" "p1" "m1" [20, 6]).2.2
    (by rfl) (by simp [KeysNodup, gameGoblin]) (by rfl) (by rfl)
  have hnone := h.1.mpr ⟨rfl, by decide⟩
  exact ⟨hnone, (h.2 hnone).1⟩
